import Mathlib

/-!
# nrf24l01plus driver: command framing and mode state machine

A shallow embedding of `include/nrf24l01plus/nrf24l01plus.hpp`,
`include/nrf24l01plus/definitions.hpp`, `include/nrf24l01plus/address.hpp` and
the transmission test of `include/nrf24l01plus/self_test.hpp`.

* `uint8_t` values are natural numbers below 256; every place where the C++
  code narrows an `int` expression back to `uint8_t` is an explicit `to_uint8`.
* The SPI bus, the chip-enable pin and the delay routine are external
  collaborators.  They are a parameter (`Hardware H`): a state type `H` with
  one function per primitive.  Bus and pin primitives may fail (`none`); a
  failure propagates through the driver like an exception unwinding the call
  stack, and the fields written before the failing step keep their new value.
* Every primitive that completes is appended to a trace of `Event`s, so that
  the order and content of the effects of an operation can be stated.
-/

namespace nrf24l01

/-! ## Register, bit and instruction constants (definitions.hpp) -/

namespace NRF_REGISTER
def CONFIG : Nat := 0x00
def EN_AA : Nat := 0x01
def EN_RXADDR : Nat := 0x02
def SETUP_AW : Nat := 0x03
def SETUP_RETR : Nat := 0x04
def RF_CH : Nat := 0x05
def RF_SETUP : Nat := 0x06
def NRF_STATUS : Nat := 0x07
def OBSERVE_TX : Nat := 0x08
def RPD : Nat := 0x09
def RX_ADDR_P0 : Nat := 0x0A
def RX_ADDR_P1 : Nat := 0x0B
def RX_ADDR_P2 : Nat := 0x0C
def RX_ADDR_P3 : Nat := 0x0D
def RX_ADDR_P4 : Nat := 0x0E
def RX_ADDR_P5 : Nat := 0x0F
def TX_ADDR : Nat := 0x10
def RX_PW_P0 : Nat := 0x11
def RX_PW_P1 : Nat := 0x12
def RX_PW_P2 : Nat := 0x13
def RX_PW_P3 : Nat := 0x14
def RX_PW_P4 : Nat := 0x15
def RX_PW_P5 : Nat := 0x16
def FIFO_STATUS : Nat := 0x17
def DYNPD : Nat := 0x1C
def FEATURE : Nat := 0x1D
end NRF_REGISTER

namespace NRF_CONFIG
def MASK_RX : Nat := 0x40
def MASK_TX_DS : Nat := 0x20
def MASK_MAX_RT : Nat := 0x10
def CONFIG_EN_CRC : Nat := 0x8
def CONFIG_CRCO : Nat := 0x04
def CONFIG_PWR_UP : Nat := 0x02
def CONFIG_PRIM_RX : Nat := 0x01
end NRF_CONFIG

namespace NRF_STATUS
def RX_DR : Nat := 0x40
def TX_DS : Nat := 0x20
def MAX_RT : Nat := 0x10
def RX_P_NO : Nat := 0x0D
def TX_FULL : Nat := 0x01
end NRF_STATUS

namespace NRF_INSTRUCTION
def R_REGISTER : Nat := 0x00
def W_REGISTER : Nat := 0x20
def R_RX_PL_WID : Nat := 0x60
def R_RX_PAYLOAD : Nat := 0x61
def W_TX_PAYLOAD : Nat := 0xA0
def W_TX_PAYLOAD_NO_ACK : Nat := 0xB0
def W_ACK_PAYLOAD : Nat := 0xA8
def FLUSH_TX : Nat := 0xE1
def FLUSH_RX : Nat := 0xE2
def REUSE_TX_PL : Nat := 0xE3
def RF24_NOP : Nat := 0xFF
end NRF_INSTRUCTION

/-! ## Machine integers -/

/-- Narrowing conversion of an `int` value to `uint8_t`. -/
def to_uint8 (x : Nat) : Nat := x % 256

/-- Bit pattern of `~x` for a 32-bit `int` or `unsigned` operand `x`
(two-complement encoding). -/
def int_not (x : Nat) : Nat := 0xFFFFFFFF - x % 2 ^ 32

/-- Bit pattern of `x << s` for a 32-bit `int` or `unsigned` operand `x`.
The C++ expression is only defined for `s < 32`. -/
def int_shl (x s : Nat) : Nat := (x <<< s) % 2 ^ 32

/-! ## External collaborators and the effect trace -/

/-- One completed primitive of the bus, the chip-enable pin or the delay
routine.  `data_out` is the bytes sent (`none` for a null output buffer),
`data_in` the bytes stored in the input buffer (`none` for a null input
buffer). -/
inductive Event where
  | csn_acquire
  | csn_release
  | write_read (n : Nat) (data_out : Option (List Nat)) (data_in : Option (List Nat))
  | write_read_reverse (n : Nat) (data_out : Option (List Nat)) (data_in : Option (List Nat))
  | ce_write (v : Bool)
  | ce_flush
  | wait_us (us : Nat)
  deriving DecidableEq, Repr

/-- Whether an event is a byte exchange on the SPI bus. -/
def Event.is_exchange : Event → Bool
  | .write_read _ _ _ => true
  | .write_read_reverse _ _ _ => true
  | _ => false

/-- Modelled from the spec: the SPI transaction primitive
(`spi/bus_base.hpp`), the GPIO output pin and the delay routine
(`hwlib.hpp`), none of which is part of this repository.  `H` is the state of
everything outside the driver.  An exchange of `n` bytes answers with the
bytes clocked in, as a function of the buffer index; `none` is an I/O
failure. -/
structure Hardware (H : Type) where
  /-- Scoped acquisition of the chip-select line (`bus.transaction(csn)`). -/
  csn_acquire : H → H
  /-- Release of the chip-select line at the end of the transaction scope. -/
  csn_release : H → H
  /-- Exchange `n` bytes in buffer order. -/
  write_read : Nat → Option (List Nat) → H → Option ((Nat → Nat) × H)
  /-- Exchange `n` bytes in reversed buffer order. -/
  write_read_reverse : Nat → Option (List Nat) → H → Option ((Nat → Nat) × H)
  /-- Set the pending value of the chip-enable pin. -/
  ce_write : Bool → H → Option H
  /-- Push the pending chip-enable value to the hardware. -/
  ce_flush : H → Option H
  /-- Blocking wait of the given number of microseconds. -/
  wait_us : Nat → H → H

/-- The driver object together with the world it acts on: the two mutable
fields of `class nrf24l01plus`, the state of the hardware behind its `bus`,
`csn` and `ce` references, and the trace of completed primitives. -/
structure nrf24l01plus (H : Type) where
  currentMode : Nat
  last_status : Nat
  hw : H
  trace : List Event

/-- A driver operation: runs on a driver value and yields the updated driver
together with either a result or `none` when an I/O failure propagated out. -/
def Drv (H : Type) (α : Type) : Type := nrf24l01plus H → Option α × nrf24l01plus H

namespace Drv

variable {H : Type} {α β : Type}

/-- Return a value without any effect. -/
protected def pure (a : α) : Drv H α := fun w => (some a, w)

/-- Sequencing: a failure of the first operation skips the second. -/
protected def bind (x : Drv H α) (f : α → Drv H β) : Drv H β := fun w =>
  match x w with
  | (some a, w1) => f a w1
  | (none, w1) => (none, w1)

instance : Monad (Drv H) where
  pure := Drv.pure
  bind := Drv.bind

end Drv

variable {H : Type}

/-- The `n` bytes stored in an input buffer by an exchange. -/
def received (n : Nat) (f : Nat → Nat) : List Nat :=
  (List.range n).map (fun i => to_uint8 (f i))

/-- Append an event to the trace. -/
def emit (e : Event) (w : nrf24l01plus H) : nrf24l01plus H :=
  { w with trace := w.trace ++ [e] }

/-- `transaction.write_read(n, data_out, data_in)`; `data_in` tells whether
the input buffer is non-null, the result is what was stored in it. -/
def transaction_write_read (hw : Hardware H) (n : Nat) (data_out : Option (List Nat))
    (data_in : Bool) : Drv H (List Nat) := fun w =>
  match hw.write_read n (data_out.map (List.take n)) w.hw with
  | none => (none, w)
  | some (f, h) =>
    (some (if data_in then received n f else []),
      emit (Event.write_read n (data_out.map (List.take n))
        (if data_in then some (received n f) else none)) { w with hw := h })

/-- `transaction.write_read_reverse(n, data_out, data_in)`. -/
def transaction_write_read_reverse (hw : Hardware H) (n : Nat) (data_out : Option (List Nat))
    (data_in : Bool) : Drv H (List Nat) := fun w =>
  match hw.write_read_reverse n (data_out.map (List.take n)) w.hw with
  | none => (none, w)
  | some (f, h) =>
    (some (if data_in then received n f else []),
      emit (Event.write_read_reverse n (data_out.map (List.take n))
        (if data_in then some (received n f) else none)) { w with hw := h })

/-- Modelled from the spec: the scope of
`auto transaction = bus.transaction(csn)`, whose class is not part of this
repository.  Chip-select is acquired, the body runs, and chip-select is
released on every exit path. -/
def transaction (hw : Hardware H) {α : Type} (body : Drv H α) : Drv H α := fun w =>
  match body (emit Event.csn_acquire { w with hw := hw.csn_acquire w.hw }) with
  | (r, w1) => (r, emit Event.csn_release { w1 with hw := hw.csn_release w1.hw })

/-- `ce.write(v)`. -/
def ce_write (hw : Hardware H) (v : Bool) : Drv H Unit := fun w =>
  match hw.ce_write v w.hw with
  | none => (none, w)
  | some h => (some (), emit (Event.ce_write v) { w with hw := h })

/-- `ce.flush()`. -/
def ce_flush (hw : Hardware H) : Drv H Unit := fun w =>
  match hw.ce_flush w.hw with
  | none => (none, w)
  | some h => (some (), emit Event.ce_flush { w with hw := h })

/-- `hwlib::wait_us(us)`. -/
def wait_us (hw : Hardware H) (us : Nat) : Drv H Unit := fun w =>
  (some (), emit (Event.wait_us us) { w with hw := hw.wait_us us w.hw })

/-- Assignment to the field `last_status`. -/
def set_last_status (s : Nat) : Drv H Unit := fun w => (some (), { w with last_status := s })

/-- Assignment to the field `currentMode`. -/
def set_currentMode (m : Nat) : Drv H Unit := fun w => (some (), { w with currentMode := m })

/-! ## The address value type (address.hpp) -/

/-- `class address`: the array `uint8_t address_bytes[5]`. -/
structure address where
  address_bytes : Fin 5 → Nat

/-- The loop `address_bytes[i] = source[i]` over the given indices. -/
def address.copy_loop (source : Fin 5 → Nat) : List (Fin 5) → (Fin 5 → Nat) → (Fin 5 → Nat)
  | [], bytes => bytes
  | i :: rest, bytes => address.copy_loop source rest (Function.update bytes i (source i))

/-- `address::address(uint8_t byteAddress[5])`: the array starts zeroed and is
filled by a loop over `i < 5`. -/
def address.of_buffer (byteAddress : List Nat) : address :=
  ⟨address.copy_loop (fun i => byteAddress.getD i 0) [0, 1, 2, 3, 4] (fun _ => 0)⟩

/-- `address::address()`. -/
def address.empty : address := ⟨![0, 0, 0, 0, 0]⟩

/-- `address::address(byte_1, byte_2, byte_3, byte_4, byte_5)`. -/
def address.of_bytes (byte_1 byte_2 byte_3 byte_4 byte_5 : Nat) : address :=
  ⟨![byte_1, byte_2, byte_3, byte_4, byte_5]⟩

/-- `address::address(const address &base, uint8_t end)`: the array starts
zeroed, a loop over `i < 4` copies the base, then the fifth byte is set. -/
def address.with_end (base : address) (end_byte : Nat) : address :=
  ⟨Function.update
    (address.copy_loop base.address_bytes [0, 1, 2, 3] (fun _ => 0)) 4 end_byte⟩

/-- The loop of `address::operator==(const address &rhs)` over the given
indices: the first differing byte returns false. -/
def address.eq_loop (a rhs : address) : List (Fin 5) → Bool
  | [] => true
  | i :: rest =>
    if a.address_bytes i ≠ rhs.address_bytes i then false
    else address.eq_loop a rhs rest

/-- `address::operator==(const address &rhs)`. -/
def address.eq (a rhs : address) : Bool := address.eq_loop a rhs [0, 1, 2, 3, 4]

/-- `address::operator==(const uint8_t &rhs)`. -/
def address.eq_byte (a : address) (rhs : Nat) : Bool := a.address_bytes 4 == rhs

/-- `address::operator!=(const uint8_t &rhs)`. -/
def address.ne_byte (a : address) (rhs : Nat) : Bool := !(a.eq_byte rhs)

/-- `address::operator!=(const address &rhs)`. -/
def address.ne (a rhs : address) : Bool := !(rhs.eq a)

/-- The five bytes of an address in array order, as passed to the driver
through the pointer `address_bytes`. -/
def address.to_list (a : address) : List Nat :=
  [a.address_bytes 0, a.address_bytes 1, a.address_bytes 2, a.address_bytes 3,
    a.address_bytes 4]

/-- The array `address_bytes` after a read stored `buffer` at its start. -/
def address.store (a : address) (buffer : List Nat) : address :=
  ⟨fun i => if i.val < buffer.length then buffer.getD i.val 0 else a.address_bytes i⟩

/-! ## The driver (nrf24l01plus.hpp) -/

def MODE_NONE : Nat := 0
def MODE_PTX : Nat := 1
def MODE_PRX : Nat := 2

/-- `nrf24l01plus::register_bytes`. -/
def register_bytes (address : Nat) : Nat :=
  if address = NRF_REGISTER.RX_ADDR_P0 ∨ address = NRF_REGISTER.RX_ADDR_P1 ∨
      address = NRF_REGISTER.TX_ADDR then
    5
  else
    1

/-- `nrf24l01plus::send_command` (pointer form).  `data_out = none` is a null
output pointer, `data_in = false` a null input pointer; the result is the
content written to the input buffer. -/
def send_command (hw : Hardware H) (command_word : Nat) (data_out : Option (List Nat))
    (n : Nat) (data_in : Bool) (lsbyte_first : Bool) : Drv H (List Nat) :=
  transaction hw (do
    let status ← transaction_write_read hw 1 (some [command_word]) true
    set_last_status (status.headD 0)
    if n = 0 then
      return []
    else if lsbyte_first then
      transaction_write_read_reverse hw n data_out data_in
    else
      transaction_write_read hw n data_out data_in)

/-- `nrf24l01plus::read_register` (pointer form). -/
def read_register (hw : Hardware H) (address : Nat) (data_in : Bool) (lsbyte_first : Bool) :
    Drv H (List Nat) :=
  send_command hw (to_uint8 (NRF_INSTRUCTION.R_REGISTER ||| address)) none
    (register_bytes address) data_in lsbyte_first

/-- `nrf24l01plus::write_register` (pointer form). -/
def write_register (hw : Hardware H) (address : Nat) (data : List Nat) (lsbyte_first : Bool) :
    Drv H Unit := do
  let _ ← send_command hw (to_uint8 (NRF_INSTRUCTION.W_REGISTER ||| address)) (some data)
    (register_bytes address) false lsbyte_first
  return ()

/-- `nrf24l01plus::write_register(const uint8_t &address, uint8_t data)`. -/
def write_register_value (hw : Hardware H) (address : Nat) (data : Nat) : Drv H Unit :=
  write_register hw address [data] false

/-- `nrf24l01plus::get_mode`. -/
def get_mode (w : nrf24l01plus H) : Nat := w.currentMode

/-- Read access to the field `currentMode` inside an operation. -/
def read_currentMode : Drv H Nat := fun w => (some w.currentMode, w)

/-- `nrf24l01plus::mode`. -/
def mode (hw : Hardware H) (newMode : Nat) : Drv H Unit := do
  let currentMode ← read_currentMode
  if currentMode = newMode then
    return ()
  else
    let fromActiveState : Bool := currentMode = MODE_PRX || currentMode = MODE_PTX
    set_currentMode newMode
    if fromActiveState then
      ce_write hw false
      ce_flush hw
      wait_us hw 130
    match newMode with
    | 1 =>
      let lastConfig ← read_register hw NRF_REGISTER.CONFIG true false
      write_register_value hw NRF_REGISTER.CONFIG
        (to_uint8 (lastConfig.headD 0 &&& int_not NRF_CONFIG.CONFIG_PRIM_RX))
    | 2 =>
      let lastConfig ← read_register hw NRF_REGISTER.CONFIG true false
      write_register_value hw NRF_REGISTER.CONFIG
        (to_uint8 (lastConfig.headD 0 ||| NRF_CONFIG.CONFIG_PRIM_RX))
      ce_write hw true
      ce_flush hw
      wait_us hw 130
    | _ => return ()

/-- `nrf24l01plus::tx_send_payload`. -/
def tx_send_payload (hw : Hardware H) : Drv H Unit := do
  ce_write hw true
  wait_us hw 10
  ce_write hw false

/-- `nrf24l01plus::tx_write_payload` (pointer form). -/
def tx_write_payload (hw : Hardware H) (data : List Nat) (size : Nat) (noack : Bool) :
    Drv H Unit := do
  if noack then
    let _ ← send_command hw NRF_INSTRUCTION.W_TX_PAYLOAD_NO_ACK (some data) size false false
  else
    let _ ← send_command hw NRF_INSTRUCTION.W_TX_PAYLOAD (some data) size false false
  tx_send_payload hw

/-- `nrf24l01plus::rx_auto_acknowledgement(pipe, value)`. -/
def rx_auto_acknowledgement (hw : Hardware H) (pipe : Nat) (value : Bool) : Drv H Unit := do
  let buffer ← read_register hw NRF_REGISTER.EN_AA true false
  let full_register := buffer.headD 0
  let full_register :=
    if value then to_uint8 (full_register ||| int_shl 1 pipe)
    else to_uint8 (full_register &&& int_not (int_shl 1 pipe))
  write_register hw NRF_REGISTER.EN_AA [full_register] false

/-- `nrf24l01plus::rx_enabled(pipe, value)`. -/
def rx_enabled (hw : Hardware H) (pipe : Nat) (value : Bool) : Drv H Unit := do
  let buffer ← read_register hw NRF_REGISTER.EN_RXADDR true false
  let full_register := buffer.headD 0
  let full_register :=
    if value then to_uint8 (full_register ||| int_shl 1 pipe)
    else to_uint8 (full_register &&& int_not (int_shl 1 pipe))
  write_register hw NRF_REGISTER.EN_RXADDR [full_register] false

/-- `nrf24l01plus::rx_set_dynamic_payload_length(pipe, enabled)`. -/
def rx_set_dynamic_payload_length (hw : Hardware H) (pipe : Nat) (enabled : Bool) :
    Drv H Unit := do
  let buffer ← read_register hw NRF_REGISTER.DYNPD true false
  let previousVal := buffer.headD 0
  let previousVal :=
    if enabled then to_uint8 (previousVal ||| int_shl 1 pipe)
    else to_uint8 (previousVal &&& int_not (int_shl 1 pipe))
  write_register hw NRF_REGISTER.DYNPD [previousVal] false

/-- `nrf24l01plus::no_operation`. -/
def no_operation (hw : Hardware H) : Drv H Unit := do
  let _ ← send_command hw NRF_INSTRUCTION.RF24_NOP none 0 false false
  return ()

/-- `nrf24l01plus::auto_retransmit`. -/
def auto_retransmit (hw : Hardware H) (retry_delay retry_count : Nat) : Drv H Unit :=
  write_register_value hw NRF_REGISTER.SETUP_RETR
    (to_uint8 (int_shl retry_delay 4 ||| retry_count))

/-- `nrf24l01plus::channel`. -/
def channel (hw : Hardware H) (channel : Nat) : Drv H Unit :=
  write_register_value hw NRF_REGISTER.RF_CH (to_uint8 (channel &&& 0xEF))

/-- `nrf24l01plus::tx_set_address`. -/
def tx_set_address (hw : Hardware H) (a : address) : Drv H Unit :=
  write_register hw NRF_REGISTER.TX_ADDR a.to_list true

/-- `nrf24l01plus::tx_get_address`. -/
def tx_get_address (hw : Hardware H) : Drv H address := do
  let data ← read_register hw NRF_REGISTER.TX_ADDR true false
  return address.of_bytes (data.getD 0 0) (data.getD 1 0) (data.getD 2 0) (data.getD 3 0)
    (data.getD 4 0)

/-- `nrf24l01plus::power`. -/
def power (hw : Hardware H) (value : Bool) : Drv H Unit := do
  let buffer ← read_register hw NRF_REGISTER.CONFIG true false
  let lastConfig := buffer.headD 0
  let lastConfig :=
    if value then to_uint8 (lastConfig ||| NRF_CONFIG.CONFIG_PWR_UP)
    else to_uint8 (lastConfig &&& int_not NRF_CONFIG.CONFIG_PWR_UP)
  write_register hw NRF_REGISTER.CONFIG [lastConfig] false

/-- `nrf24l01plus::fifo_status`. -/
def fifo_status (hw : Hardware H) : Drv H Nat := do
  let status ← read_register hw NRF_REGISTER.FIFO_STATUS true false
  return status.headD 0

/-- `nrf24l01plus::rx_payload_width`. -/
def rx_payload_width (hw : Hardware H) : Drv H Nat := do
  let pw ← send_command hw NRF_INSTRUCTION.R_RX_PL_WID none 1 true false
  return pw.headD 0

/-- `nrf24l01plus::rx_read_payload` (pointer form); `data = false` is a null
pointer. -/
def rx_read_payload (hw : Hardware H) (data : Bool) (payload_width : Nat) :
    Drv H (List Nat) :=
  send_command hw NRF_INSTRUCTION.R_RX_PAYLOAD none payload_width data false

/-- `nrf24l01plus::rx_flush`. -/
def rx_flush (hw : Hardware H) : Drv H Unit := do
  let _ ← send_command hw NRF_INSTRUCTION.FLUSH_RX none 0 false false
  return ()

/-- `nrf24l01plus::tx_flush`. -/
def tx_flush (hw : Hardware H) : Drv H Unit := do
  let _ ← send_command hw NRF_INSTRUCTION.FLUSH_TX none 0 false false
  return ()

/-- `nrf24l01plus::rx_auto_acknowledgement(value)`, the form for all pipes. -/
def rx_auto_acknowledgement_all (hw : Hardware H) (value : Bool) : Drv H Unit :=
  write_register_value hw NRF_REGISTER.EN_AA (to_uint8 (if value then 0x3F else 0x00))

/-- `nrf24l01plus::rx_enabled(value)`, the form for all pipes. -/
def rx_enabled_all (hw : Hardware H) (value : Bool) : Drv H Unit :=
  write_register_value hw NRF_REGISTER.EN_RXADDR (to_uint8 (if value then 0x3F else 0x00))

/-- `nrf24l01plus::rx_get_address`. -/
def rx_get_address (hw : Hardware H) (pipe : Nat) : Drv H address := do
  if pipe > 1 then
    let base_address := address.empty
    let buffer ← read_register hw NRF_REGISTER.RX_ADDR_P1 true false
    let base_address := base_address.store buffer
    let end_buffer ← read_register hw (to_uint8 (NRF_REGISTER.RX_ADDR_P0 + pipe)) true false
    return address.with_end base_address (end_buffer.headD 0)
  else
    let buffer ← read_register hw (to_uint8 (NRF_REGISTER.RX_ADDR_P0 + pipe)) true true
    return address.of_buffer buffer

/-- `nrf24l01plus::rx_set_address`. -/
def rx_set_address (hw : Hardware H) (pipe : Nat) (a : address) : Drv H Unit :=
  if pipe > 1 then
    write_register hw (to_uint8 (NRF_REGISTER.RX_ADDR_P0 + pipe)) (a.to_list.drop 4) true
  else
    write_register hw (to_uint8 (NRF_REGISTER.RX_ADDR_P0 + pipe)) a.to_list true

/-- `nrf24l01plus::rx_set_payload_width(pipe, width)`. -/
def rx_set_payload_width (hw : Hardware H) (pipe width : Nat) : Drv H Unit :=
  write_register_value hw (to_uint8 (NRF_REGISTER.RX_PW_P0 + pipe)) (to_uint8 (width &&& 0x3F))

/-- The loop `for (uint8_t i = 0; i < 6; i++)` of
`rx_set_payload_width(width)` at loop variable `i`.  The recursion is on a
fuel argument; running out of fuel yields no result. -/
def rx_set_payload_width_loop (hw : Hardware H) (width : Nat) : Nat → Nat → Drv H Unit
  | 0, _ => fun w => (none, w)
  | fuel + 1, i =>
    if i < 6 then do
      rx_set_payload_width hw i width
      rx_set_payload_width_loop hw width fuel (to_uint8 (i + 1))
    else
      pure ()

/-- `nrf24l01plus::rx_set_payload_width(width)`, the form for all pipes: the
loop started at `i = 0`, with fuel for the six iterations and the final
test. -/
def rx_set_payload_width_all (hw : Hardware H) (width : Nat) : Drv H Unit :=
  rx_set_payload_width_loop hw width 7 0

/-- `nrf24l01plus::rx_get_payload_width`. -/
def rx_get_payload_width (hw : Hardware H) (pipe : Nat) : Drv H Nat := do
  let width ← read_register hw (to_uint8 (NRF_REGISTER.RX_PW_P0 + pipe)) true false
  return width.headD 0

/-- `nrf24l01plus::rx_set_dynamic_payload_length(enabled)`, the form for all
pipes. -/
def rx_set_dynamic_payload_length_all (hw : Hardware H) (enabled : Bool) : Drv H Unit :=
  write_register_value hw NRF_REGISTER.DYNPD (to_uint8 (if enabled then 0x3F else 0x00))

/-- The constructor `nrf24l01plus(bus, csn, ce)`: `currentMode = 0`,
`last_status(0)`, nothing done on the hardware yet. -/
def construct (h : H) : nrf24l01plus H :=
  { currentMode := 0, last_status := 0, hw := h, trace := [] }

/-! ## The self test (self_test.hpp) -/

/-- `class startup_test`: the driver it refers to and its two flags. -/
structure startup_test (H : Type) where
  nrf : nrf24l01plus H
  register_success : Bool
  noack_transmission_success : Bool

/-- A member function of the self test: runs on a self test value and yields
the updated value together with a result, or `none` when it did not return. -/
def Tst (H : Type) (α : Type) : Type := startup_test H → Option α × startup_test H

namespace Tst

variable {H : Type} {α β : Type}

/-- Return a value without any effect. -/
protected def pure (a : α) : Tst H α := fun t => (some a, t)

/-- Sequencing: when the first part does not return, the second is skipped. -/
protected def bind (x : Tst H α) (f : α → Tst H β) : Tst H β := fun t =>
  match x t with
  | (some a, t1) => f a t1
  | (none, t1) => (none, t1)

instance : Monad (Tst H) where
  pure := Tst.pure
  bind := Tst.bind

/-- A call of a driver member function through the reference `nrf`. -/
def call (x : Drv H α) : Tst H α := fun t =>
  match x t.nrf with
  | (r, n) => (r, { t with nrf := n })

/-- Read access to `nrf.last_status`. -/
def last_status : Tst H Nat := fun t => (some t.nrf.last_status, t)

/-- Assignment to the field `noack_transmission_success`. -/
def set_noack_transmission_success (b : Bool) : Tst H Unit := fun t =>
  (some (), { t with noack_transmission_success := b })

end Tst

/-- The constructor `startup_test(nrf)`: both flags start false. -/
def startup_test.construct (nrf : nrf24l01plus H) : startup_test H :=
  { nrf := nrf, register_success := false, noack_transmission_success := false }

/-- The `do ... while` loop of `test_one_side_transmission`.  The recursion is
on a fuel argument, one unit per iteration; running out of fuel yields no
result. -/
def wait_for_transmission (hw : Hardware H) : Nat → Tst H Unit
  | 0 => fun t => (none, t)
  | fuel + 1 => do
    Tst.call (no_operation hw)
    let status ← Tst.last_status
    if (status &&& NRF_STATUS.MAX_RT) > 0 then
      Tst.set_noack_transmission_success false
    let status ← Tst.last_status
    if (status &&& NRF_STATUS.TX_DS) = 0 then
      wait_for_transmission hw fuel
    else
      return ()

/-- `startup_test::test_one_side_transmission`, with the fuel of its wait
loop. -/
def test_one_side_transmission (hw : Hardware H) (fuel : Nat) : Tst H Unit := do
  let test_address := address.of_bytes 0x34 0x34 0x34 0x34 0x34
  let data := [0, 0, 0, 0, 0]
  Tst.call (tx_set_address hw test_address)
  Tst.call (rx_set_address hw 0 test_address)
  Tst.call (mode hw MODE_PTX)
  Tst.call (write_register_value hw NRF_REGISTER.FEATURE 1)
  Tst.call (tx_write_payload hw data 5 true)
  wait_for_transmission hw fuel
  Tst.set_noack_transmission_success true
  Tst.call (mode hw MODE_NONE)

/-- `startup_test::all_successful`. -/
def all_successful (t : startup_test H) : Bool :=
  t.register_success && t.noack_transmission_success

/-! ## A mock register file

A stand-in for the chip behind the bus: a table of register contents addressed
by the R_REGISTER and W_REGISTER commands.  A byte-reversed transfer stores and
returns the bytes in reverse order.  The initial contents are the reset values
listed in `self_test.hpp`. -/

/-- State of the mock chip. -/
structure MockChip where
  /-- Register contents, indexed by register address. -/
  registers : List (List Nat)
  /-- The command word received since chip-select was acquired. -/
  command : Option Nat
  /-- The status byte answered to every command word. -/
  status : Nat
  /-- Pending value and hardware value of the chip-enable pin. -/
  ce_pending : Bool
  ce_pin : Bool
  deriving DecidableEq, Repr

/-- The chip after reset. -/
def MockChip.reset : MockChip where
  registers :=
    [[0x08], [0x3F], [0x03], [0x03], [0x03], [0x02], [0x0E], [0x0E], [0x00], [0x00],
     [0xE7, 0xE7, 0xE7, 0xE7, 0xE7], [0xC2, 0xC2, 0xC2, 0xC2, 0xC2], [0xC3], [0xC4], [0xC5],
     [0xC6], [0xE7, 0xE7, 0xE7, 0xE7, 0xE7], [0x00], [0x00], [0x00], [0x00], [0x00], [0x00],
     [0x11], [0x00], [0x00], [0x00], [0x00], [0x00], [0x00]]
  command := none
  status := 0x0E
  ce_pending := false
  ce_pin := false

/-- One exchange with the mock chip: the first exchange after chip-select is
the command word and is answered with the status byte; the following one is
the payload of that command. -/
def MockChip.exchange (reverse : Bool) (n : Nat) (data_out : Option (List Nat))
    (c : MockChip) : (Nat → Nat) × MockChip :=
  match c.command with
  | none => (fun _ => c.status, { c with command := (data_out.getD []).head? })
  | some op =>
    if op < 0x20 then
      let stored := (c.registers.getD op []).take n
      let buffer := if reverse then stored.reverse else stored
      (fun i => buffer.getD i 0, c)
    else if op < 0x40 then
      let data := data_out.getD []
      let stored := if reverse then data.reverse else data
      (fun _ => 0, { c with registers := c.registers.set (op - 0x20) stored })
    else
      (fun _ => 0, c)

/-- The mock chip behind a bus and pins that never fail. -/
def mock : Hardware MockChip where
  csn_acquire c := { c with command := none }
  csn_release c := { c with command := none }
  write_read n data_out c := some (c.exchange false n data_out)
  write_read_reverse n data_out c := some (c.exchange true n data_out)
  ce_write v c := some { c with ce_pending := v }
  ce_flush c := some { c with ce_pin := c.ce_pending }
  wait_us _ c := c

/-- The mock chip behind a bus on which every byte exchange fails. -/
def broken_bus : Hardware MockChip :=
  { mock with
    write_read := fun _ _ _ => none
    write_read_reverse := fun _ _ _ => none }

/-- A freshly constructed driver (mode NONE, status 0) on a reset chip. -/
def fresh : nrf24l01plus MockChip where
  currentMode := 0
  last_status := 0
  hw := MockChip.reset
  trace := []

/-! ## Vocabulary of the statements -/

/-- The event of the payload exchange of a command. -/
def payload_event (lsbyte_first : Bool) (n : Nat) (data_out : Option (List Nat))
    (data_in : Option (List Nat)) : Event :=
  if lsbyte_first then Event.write_read_reverse n data_out data_in
  else Event.write_read n data_out data_in

/-- The first half of `mode` after the new mode is stored: the chip-enable
steps taken when an active mode is left (see `mode_change`). -/
def leave_active (hw : Hardware H) (fromActiveState : Bool) : Drv H Unit :=
  if fromActiveState then do
    ce_write hw false
    ce_flush hw
    wait_us hw 130
  else pure ()

/-- The second half of `mode`: the `switch (newMode)` with the CONFIG update
and chip-enable steps selected by the new mode (see `mode_change`). -/
def enter_mode (hw : Hardware H) (newMode : Nat) : Drv H Unit :=
  match newMode with
  | 1 => do
    let lastConfig ← read_register hw NRF_REGISTER.CONFIG true false
    write_register_value hw NRF_REGISTER.CONFIG
      (to_uint8 (lastConfig.headD 0 &&& int_not NRF_CONFIG.CONFIG_PRIM_RX))
  | 2 => do
    let lastConfig ← read_register hw NRF_REGISTER.CONFIG true false
    write_register_value hw NRF_REGISTER.CONFIG
      (to_uint8 (lastConfig.headD 0 ||| NRF_CONFIG.CONFIG_PRIM_RX))
    ce_write hw true
    ce_flush hw
    wait_us hw 130
  | _ => return ()

/-- The four events of a completed one-byte register read. -/
def read_events (address status value : Nat) : List Event :=
  [Event.csn_acquire, Event.write_read 1 (some [address]) (some [status]),
    Event.write_read 1 none (some [value]), Event.csn_release]

/-- The four events of a completed one-byte register write. -/
def write_events (address status value : Nat) : List Event :=
  [Event.csn_acquire, Event.write_read 1 (some [0x20 ||| address]) (some [status]),
    Event.write_read 1 (some [value]) none, Event.csn_release]

/-- An operation that leaves `currentMode` alone whether it completes or fails. -/
def KeepsMode {α : Type} (x : Drv H α) : Prop :=
  ∀ w, (x w).2.currentMode = w.currentMode

/-- Hardware on which no byte exchange and no chip-enable access ever fails. -/
def Reliable (hw : Hardware H) : Prop :=
  (∀ n o h, hw.write_read n o h ≠ none) ∧
  (∀ n o h, hw.write_read_reverse n o h ≠ none) ∧
  (∀ v h, hw.ce_write v h ≠ none) ∧
  (∀ h, hw.ce_flush h ≠ none)

/-- An operation that completes, without a propagated failure, from every
driver value. -/
def Completes {α : Type} (x : Drv H α) : Prop :=
  ∀ w, (x w).1 ≠ none

/-- The trace grew by exactly one read of the one-byte register `address`
yielding `r` followed by one write of the same register, and the byte written
has bit `p` equal to `v` and every other bit equal to that bit of `r`. -/
def BitUpdate (address p : Nat) (v : Bool) (before after : List Event) : Prop :=
  ∃ s1 r s2 x,
    after = before ++
      [Event.csn_acquire, Event.write_read 1 (some [address]) (some [s1]),
        Event.write_read 1 none (some [r]), Event.csn_release,
        Event.csn_acquire, Event.write_read 1 (some [0x20 ||| address]) (some [s2]),
        Event.write_read 1 (some [x]) none, Event.csn_release] ∧
    x.testBit p = v ∧
    ∀ i, i ≠ p → x.testBit i = r.testBit i

/-- A call of one public member function of the driver with its arguments. -/
inductive Op where
  | send_command (command_word : Nat) (data_out : Option (List Nat)) (n : Nat)
      (data_in lsbyte_first : Bool)
  | read_register (address : Nat) (data_in lsbyte_first : Bool)
  | write_register (address : Nat) (data : List Nat) (lsbyte_first : Bool)
  | write_register_value (address data : Nat)
  | no_operation
  | auto_retransmit (retry_delay retry_count : Nat)
  | channel (channel : Nat)
  | tx_set_address (a : address)
  | tx_get_address
  | get_mode
  | mode (newMode : Nat)
  | power (value : Bool)
  | fifo_status
  | rx_payload_width
  | rx_read_payload (data : Bool) (payload_width : Nat)
  | rx_flush
  | tx_send_payload
  | tx_write_payload (data : List Nat) (size : Nat) (noack : Bool)
  | tx_flush
  | rx_auto_acknowledgement (pipe : Nat) (value : Bool)
  | rx_auto_acknowledgement_all (value : Bool)
  | rx_enabled (pipe : Nat) (value : Bool)
  | rx_enabled_all (value : Bool)
  | rx_get_address (pipe : Nat)
  | rx_set_address (pipe : Nat) (a : address)
  | rx_set_payload_width (pipe width : Nat)
  | rx_set_payload_width_all (width : Nat)
  | rx_get_payload_width (pipe : Nat)
  | rx_set_dynamic_payload_length (pipe : Nat) (enabled : Bool)
  | rx_set_dynamic_payload_length_all (enabled : Bool)

/-- The driver after one call, whether the call completed or a failure
propagated out of it. -/
def run_op (hw : Hardware H) (op : Op) (w : nrf24l01plus H) : nrf24l01plus H :=
  match op with
  | .send_command c o n i l => (send_command hw c o n i l w).2
  | .read_register a i l => (read_register hw a i l w).2
  | .write_register a d l => (write_register hw a d l w).2
  | .write_register_value a d => (write_register_value hw a d w).2
  | .no_operation => (no_operation hw w).2
  | .auto_retransmit d c => (auto_retransmit hw d c w).2
  | .channel c => (channel hw c w).2
  | .tx_set_address a => (tx_set_address hw a w).2
  | .tx_get_address => (tx_get_address hw w).2
  | .get_mode => w
  | .mode m => (mode hw m w).2
  | .power v => (power hw v w).2
  | .fifo_status => (fifo_status hw w).2
  | .rx_payload_width => (rx_payload_width hw w).2
  | .rx_read_payload d n => (rx_read_payload hw d n w).2
  | .rx_flush => (rx_flush hw w).2
  | .tx_send_payload => (tx_send_payload hw w).2
  | .tx_write_payload d n a => (tx_write_payload hw d n a w).2
  | .tx_flush => (tx_flush hw w).2
  | .rx_auto_acknowledgement p v => (rx_auto_acknowledgement hw p v w).2
  | .rx_auto_acknowledgement_all v => (rx_auto_acknowledgement_all hw v w).2
  | .rx_enabled p v => (rx_enabled hw p v w).2
  | .rx_enabled_all v => (rx_enabled_all hw v w).2
  | .rx_get_address p => (rx_get_address hw p w).2
  | .rx_set_address p a => (rx_set_address hw p a w).2
  | .rx_set_payload_width p n => (rx_set_payload_width hw p n w).2
  | .rx_set_payload_width_all n => (rx_set_payload_width_all hw n w).2
  | .rx_get_payload_width p => (rx_get_payload_width hw p w).2
  | .rx_set_dynamic_payload_length p v => (rx_set_dynamic_payload_length hw p v w).2
  | .rx_set_dynamic_payload_length_all v => (rx_set_dynamic_payload_length_all hw v w).2

/-- The driver after a sequence of calls, made one after the other. -/
def run_ops (hw : Hardware H) : List Op → nrf24l01plus H → nrf24l01plus H
  | [], w => w
  | op :: rest, w => run_ops hw rest (run_op hw op w)

/-- Checks the chip-select discipline of a trace; `held` tells whether
chip-select is held before the first event.  An acquire is only accepted while
chip-select is free, a release and a byte exchange only while it is held, and
at the end chip-select must be free. -/
def framing : Bool → List Event → Bool
  | held, [] => !held
  | held, Event.csn_acquire :: rest => !held && framing true rest
  | held, Event.csn_release :: rest => held && framing false rest
  | held, Event.write_read _ _ _ :: rest => held && framing held rest
  | held, Event.write_read_reverse _ _ _ :: rest => held && framing held rest
  | held, _ :: rest => framing held rest

/-- A relation between the driver before and after a step that holds across
every primitive step the member functions are built from: it is reflexive and
transitive, and every `send_command`, chip-enable access and wait respects it
whether it completes or fails. -/
structure Respected (hw : Hardware H) (R : nrf24l01plus H → nrf24l01plus H → Prop) : Prop where
  refl : ∀ w, R w w
  trans : ∀ w1 w2 w3, R w1 w2 → R w2 w3 → R w1 w3
  send_command : ∀ c o n i l w, R w (send_command hw c o n i l w).2
  ce_write : ∀ v w, R w (ce_write hw v w).2
  ce_flush : ∀ w, R w (ce_flush hw w).2
  wait_us : ∀ us w, R w (wait_us hw us w).2

/-- An operation every run of which is related to its start by `R`. -/
def Steps {α : Type} (R : nrf24l01plus H → nrf24l01plus H → Prop) (x : Drv H α) : Prop :=
  ∀ w, R w (x w).2

/-- The trace of `after` extends the trace of `before` by events that keep the
chip-select discipline. -/
def Framed (before after : nrf24l01plus H) : Prop :=
  ∃ evs, after.trace = before.trace ++ evs ∧ framing false evs = true

/-- The mode is one of NONE, PRIMARY_TRANSMIT and PRIMARY_RECEIVE. -/
def ValidMode (w : nrf24l01plus H) : Prop :=
  w.currentMode = MODE_NONE ∨ w.currentMode = MODE_PTX ∨ w.currentMode = MODE_PRX

/-- The all-pipes payload width setting in the words of the specification:
the per-pipe form called for pipes 0, 1, 2, 3, 4, 5 in that order. -/
def rx_set_payload_width_each (hw : Hardware H) (width : Nat) : Drv H Unit := do
  rx_set_payload_width hw 0 width
  rx_set_payload_width hw 1 width
  rx_set_payload_width hw 2 width
  rx_set_payload_width hw 3 width
  rx_set_payload_width hw 4 width
  rx_set_payload_width hw 5 width

/-- The value last written to the chip-enable pin along a trace that starts
with the pin at `level`. -/
def ce_level (level : Bool) : List Event → Bool
  | [] => level
  | Event.ce_write v :: rest => ce_level v rest
  | _ :: rest => ce_level level rest

/-- The member functions that only talk to the bus: all but `mode`,
`tx_send_payload` and `tx_write_payload`, which also drive chip-enable. -/
def Op.bus_only : Op → Bool
  | Op.mode _ => false
  | Op.tx_send_payload => false
  | Op.tx_write_payload _ _ _ => false
  | _ => true

/-- The same bus with a chip-enable pin whose accesses all fail. -/
def dead_pins (hw : Hardware H) : Hardware H :=
  { hw with
    ce_write := fun _ _ => none
    ce_flush := fun _ => none }

/-- The driver keeps its mode and the value last written to chip-enable. -/
def KeepsPins (before after : nrf24l01plus H) : Prop :=
  after.currentMode = before.currentMode ∧
    ∀ level, ce_level level after.trace = ce_level level before.trace

/-- Chip-enable is only left asserted in PRIMARY_RECEIVE: if the value last
written to it is true, the mode is PRIMARY_RECEIVE. -/
def CeOnlyInReceive (w : nrf24l01plus H) : Prop :=
  ce_level false w.trace = true → w.currentMode = MODE_PRX

/-- The mock chip with the given status byte. -/
def mock_with_status (status : Nat) : nrf24l01plus MockChip :=
  construct { MockChip.reset with status := status }

/-! ## Bit arithmetic -/

theorem int_shl_one {p : Nat} (hp : p < 32) : int_shl 1 p = 2 ^ p := by
  unfold int_shl
  rw [Nat.one_shiftLeft]
  exact Nat.mod_eq_of_lt (Nat.pow_lt_pow_right (by decide) hp)

theorem testBit_of_uint8 {r i : Nat} (hr : r < 256) (hi : 8 ≤ i) : r.testBit i = false :=
  Nat.testBit_lt_two_pow (lt_of_lt_of_le hr (Nat.pow_le_pow_right (by decide) hi : 2 ^ 8 ≤ 2 ^ i))

theorem testBit_int_not {x : Nat} (hx : x < 2 ^ 32) (i : Nat) :
    (int_not x).testBit i = (decide (i < 32) && !x.testBit i) := by
  unfold int_not
  rw [Nat.mod_eq_of_lt hx]
  have : 0xFFFFFFFF - x = 2 ^ 32 - (x + 1) := by omega
  rw [this, Nat.testBit_two_pow_sub_succ hx]

theorem testBit_set_bit {r p : Nat} (hr : r < 256) (hp : p < 8) (i : Nat) :
    (to_uint8 (r ||| int_shl 1 p)).testBit i = (decide (i = p) || r.testBit i) := by
  unfold to_uint8
  rw [int_shl_one (by omega), show 256 = 2 ^ 8 from rfl, Nat.testBit_mod_two_pow, Nat.testBit_or,
    Nat.testBit_two_pow]
  by_cases hi : i < 8
  · simp [hi, eq_comm, Bool.or_comm]
  · have h1 : r.testBit i = false := testBit_of_uint8 hr (by omega)
    have h2 : ¬ i = p := by omega
    simp [hi, h1, h2]

theorem testBit_clear_bit {r p : Nat} (hr : r < 256) (hp : p < 32) (i : Nat) :
    (to_uint8 (r &&& int_not (int_shl 1 p))).testBit i = (!decide (i = p) && r.testBit i) := by
  unfold to_uint8
  rw [int_shl_one hp, show 256 = 2 ^ 8 from rfl, Nat.testBit_mod_two_pow, Nat.testBit_and,
    testBit_int_not (Nat.pow_lt_pow_right (by decide) hp), Nat.testBit_two_pow]
  by_cases hi : i < 8
  · have : i < 32 := by omega
    simp [hi, this, eq_comm, Bool.and_comm]
  · have h1 : r.testBit i = false := testBit_of_uint8 hr (by omega)
    simp [hi, h1]

set_option maxRecDepth 100000 in
theorem clear_bit0 : ∀ c < 256, to_uint8 (c &&& int_not 1) = c &&& 0xFE := by
  decide

set_option maxRecDepth 100000 in
theorem set_bit0 : ∀ c < 256, to_uint8 (c ||| 1) = c ||| 1 := by
  decide

/-! ## Running operations -/

theorem Drv.bind_run {α β : Type} (x : Drv H α) (f : α → Drv H β) (w : nrf24l01plus H) :
    Drv.bind x f w = match x w with
      | (some a, w1) => f a w1
      | (none, w1) => (none, w1) := rfl

theorem Drv.pure_run {α : Type} (a : α) (w : nrf24l01plus H) :
    Drv.pure a w = (some a, w) := rfl

theorem received_one (f : Nat → Nat) : received 1 f = [to_uint8 (f 0)] := rfl

theorem send_command_ok {hw : Hardware H} {command_word n : Nat} {data_out : Option (List Nat)}
    {data_in lsbyte_first : Bool} {w w1 : nrf24l01plus H} {r : List Nat}
    (h : send_command hw command_word data_out n data_in lsbyte_first w = (some r, w1)) :
    ∃ f h1, hw.write_read 1 (some [command_word]) (hw.csn_acquire w.hw) = some (f, h1) ∧
      ((n = 0 ∧ r = [] ∧ w1 = ⟨w.currentMode, to_uint8 (f 0), hw.csn_release h1,
          w.trace ++ [Event.csn_acquire,
            Event.write_read 1 (some [command_word]) (some [to_uint8 (f 0)]),
            Event.csn_release]⟩) ∨
       (n ≠ 0 ∧ ∃ g h2,
          (if lsbyte_first then hw.write_read_reverse else hw.write_read) n
            (data_out.map (List.take n)) h1 = some (g, h2) ∧
          r = (if data_in then received n g else []) ∧
          w1 = ⟨w.currentMode, to_uint8 (f 0), hw.csn_release h2,
            w.trace ++ [Event.csn_acquire,
              Event.write_read 1 (some [command_word]) (some [to_uint8 (f 0)]),
              payload_event lsbyte_first n (data_out.map (List.take n))
                (if data_in then some (received n g) else none),
              Event.csn_release]⟩)) := by
  unfold send_command transaction at h
  simp only [bind, Drv.bind_run, transaction_write_read, emit, Option.map_some',
    List.take_succ_cons, List.take_zero] at h
  cases h1 : hw.write_read 1 (some [command_word]) (hw.csn_acquire w.hw) with
  | none => simp [h1] at h
  | some p =>
    obtain ⟨f, h1s⟩ := p
    refine ⟨f, h1s, rfl, ?_⟩
    simp only [h1, set_last_status, received_one, if_true, List.headD_cons] at h
    by_cases hn : n = 0
    · left
      simp only [hn, if_true, pure, Drv.pure_run, Prod.mk.injEq, Option.some.injEq] at h
      refine ⟨hn, h.1.symm, ?_⟩
      rw [← h.2]
      simp
    · right
      refine ⟨hn, ?_⟩
      simp only [hn, if_false] at h
      cases lsbyte_first with
      | true =>
        simp only [if_true, transaction_write_read_reverse, emit] at h ⊢
        cases h2 : hw.write_read_reverse n (Option.map (List.take n) data_out) h1s with
        | none => simp [h2] at h
        | some q =>
          obtain ⟨g, h2s⟩ := q
          simp only [h2, Prod.mk.injEq, Option.some.injEq] at h
          refine ⟨g, h2s, rfl, h.1.symm, ?_⟩
          rw [← h.2]; simp [payload_event]
      | false =>
        simp only [Bool.false_eq_true, if_false, transaction_write_read, emit] at h ⊢
        cases h2 : hw.write_read n (Option.map (List.take n) data_out) h1s with
        | none => simp [h2] at h
        | some q =>
          obtain ⟨g, h2s⟩ := q
          simp only [h2, Prod.mk.injEq, Option.some.injEq] at h
          refine ⟨g, h2s, rfl, h.1.symm, ?_⟩
          rw [← h.2]; simp [payload_event]

theorem Drv.bind_ok {α β : Type} {x : Drv H α} {f : α → Drv H β} {w w2 : nrf24l01plus H} {b : β}
    (h : Drv.bind x f w = (some b, w2)) :
    ∃ a w1, x w = (some a, w1) ∧ f a w1 = (some b, w2) := by
  rw [Drv.bind_run] at h
  rcases hx : x w with ⟨_ | a, w1⟩
  · simp [hx] at h
  · exact ⟨a, w1, rfl, by simpa [hx] using h⟩

theorem received_length (n : Nat) (f : Nat → Nat) : (received n f).length = n := by
  simp [received]

theorem received_lt (n : Nat) (f : Nat → Nat) : ∀ b ∈ received n f, b < 256 := by
  intro b hb
  simp only [received, List.mem_map] at hb
  obtain ⟨i, _, rfl⟩ := hb
  exact Nat.mod_lt _ (by decide)

theorem to_uint8_lt (x : Nat) : to_uint8 x < 256 := Nat.mod_lt _ (by decide)

theorem to_uint8_of_lt {x : Nat} (h : x < 256) : to_uint8 x = x := Nat.mod_eq_of_lt h

theorem register_bytes_ne_zero (a : Nat) : register_bytes a ≠ 0 := by
  unfold register_bytes
  split <;> decide

/-- What a completed command leaves behind: the mode is untouched, the status
byte of the command word exchange is in `last_status`, and the trace has grown
by one framed transaction. -/
theorem send_command_trace {hw : Hardware H} {command_word n : Nat}
    {data_out : Option (List Nat)} {data_in lsbyte_first : Bool} {w w1 : nrf24l01plus H}
    {r : List Nat}
    (h : send_command hw command_word data_out n data_in lsbyte_first w = (some r, w1)) :
    ∃ status reply, status < 256 ∧ reply.length = n ∧ (∀ b ∈ reply, b < 256) ∧
      r = (if data_in ∧ n ≠ 0 then reply else []) ∧
      w1.currentMode = w.currentMode ∧ w1.last_status = status ∧
      w1.trace = w.trace ++ ([Event.csn_acquire,
          Event.write_read 1 (some [command_word]) (some [status])] ++
        (if n = 0 then []
         else [payload_event lsbyte_first n (data_out.map (List.take n))
            (if data_in then some reply else none)]) ++
        [Event.csn_release]) := by
  obtain ⟨f, h1, _, hcase⟩ := send_command_ok h
  rcases hcase with ⟨hn, hr, hw1⟩ | ⟨hn, g, h2, _, hr, hw1⟩
  · refine ⟨to_uint8 (f 0), [], to_uint8_lt _, by simp [hn], by simp, by simp [hr, hn], ?_, ?_, ?_⟩
    all_goals simp [hw1, hn]
  · refine ⟨to_uint8 (f 0), received n g, to_uint8_lt _, received_length n g, received_lt n g,
      by simp [hr, hn], ?_, ?_, ?_⟩
    all_goals simp [hw1, hn]

theorem read_register_trace {hw : Hardware H} {address : Nat} {lsbyte_first : Bool}
    {w w1 : nrf24l01plus H} {r : List Nat}
    (h : read_register hw address true lsbyte_first w = (some r, w1)) :
    ∃ status, status < 256 ∧ r.length = register_bytes address ∧ (∀ b ∈ r, b < 256) ∧
      w1.currentMode = w.currentMode ∧ w1.last_status = status ∧
      w1.trace = w.trace ++ [Event.csn_acquire,
        Event.write_read 1 (some [to_uint8 (NRF_INSTRUCTION.R_REGISTER ||| address)])
          (some [status]),
        payload_event lsbyte_first (register_bytes address) none (some r),
        Event.csn_release] := by
  obtain ⟨status, reply, hs, hlen, hlt, hr, hm, hl, ht⟩ := send_command_trace h
  have hn := register_bytes_ne_zero address
  simp only [hn, ne_eq, not_false_eq_true, and_self, if_true, if_false, Option.map_none'] at hr ht
  subst hr
  exact ⟨status, hs, hlen, hlt, hm, hl, by simpa using ht⟩

theorem write_register_trace {hw : Hardware H} {address : Nat} {data : List Nat}
    {lsbyte_first : Bool} {w w1 : nrf24l01plus H}
    (h : write_register hw address data lsbyte_first w = (some (), w1)) :
    ∃ status, status < 256 ∧
      w1.currentMode = w.currentMode ∧ w1.last_status = status ∧
      w1.trace = w.trace ++ [Event.csn_acquire,
        Event.write_read 1 (some [to_uint8 (NRF_INSTRUCTION.W_REGISTER ||| address)])
          (some [status]),
        payload_event lsbyte_first (register_bytes address)
          (some (data.take (register_bytes address))) none,
        Event.csn_release] := by
  unfold write_register at h
  obtain ⟨r, w2, h2, hp⟩ := Drv.bind_ok h
  simp only [pure, Drv.pure_run, Prod.mk.injEq, true_and] at hp
  subst hp
  obtain ⟨status, reply, hs, _, _, _, hm, hl, ht⟩ := send_command_trace h2
  have hn := register_bytes_ne_zero address
  simp only [hn, if_false, Option.map_some', Bool.false_eq_true] at ht
  exact ⟨status, hs, hm, hl, by simpa using ht⟩

theorem ce_write_trace {hw : Hardware H} {v : Bool} {w w1 : nrf24l01plus H}
    (h : ce_write hw v w = (some (), w1)) :
    w1.currentMode = w.currentMode ∧ w1.last_status = w.last_status ∧
      w1.trace = w.trace ++ [Event.ce_write v] := by
  unfold ce_write at h
  cases hc : hw.ce_write v w.hw with
  | none => simp [hc] at h
  | some c =>
    simp only [hc, emit, Prod.mk.injEq, true_and] at h
    subst h
    exact ⟨rfl, rfl, rfl⟩

theorem ce_flush_trace {hw : Hardware H} {w w1 : nrf24l01plus H}
    (h : ce_flush hw w = (some (), w1)) :
    w1.currentMode = w.currentMode ∧ w1.last_status = w.last_status ∧
      w1.trace = w.trace ++ [Event.ce_flush] := by
  unfold ce_flush at h
  cases hc : hw.ce_flush w.hw with
  | none => simp [hc] at h
  | some c =>
    simp only [hc, emit, Prod.mk.injEq, true_and] at h
    subst h
    exact ⟨rfl, rfl, rfl⟩

theorem wait_us_trace {hw : Hardware H} {us : Nat} {w w1 : nrf24l01plus H}
    (h : wait_us hw us w = (some (), w1)) :
    w1.currentMode = w.currentMode ∧ w1.last_status = w.last_status ∧
      w1.trace = w.trace ++ [Event.wait_us us] := by
  unfold wait_us at h
  simp only [emit, Prod.mk.injEq, true_and] at h
  subst h
  exact ⟨rfl, rfl, rfl⟩

theorem run_eq {α : Type} {x : Drv H α} {w : nrf24l01plus H} {r : α} (h : (x w).1 = some r) :
    x w = (some r, (x w).2) := Prod.ext h rfl

/-! ## Decomposition of `mode` -/

theorem Drv.bind_assoc {α β γ : Type} (x : Drv H α) (f : α → Drv H β) (g : β → Drv H γ) :
    Drv.bind (Drv.bind x f) g = Drv.bind x (fun a => Drv.bind (f a) g) := by
  funext w
  simp only [Drv.bind_run]
  rcases x w with ⟨_ | a, w1⟩ <;> rfl

theorem mode_change (hw : Hardware H) (newMode : Nat) (w : nrf24l01plus H)
    (hne : w.currentMode ≠ newMode) :
    mode hw newMode w =
      Drv.bind (leave_active hw (w.currentMode = MODE_PRX || w.currentMode = MODE_PTX))
        (fun _ => enter_mode hw newMode) { w with currentMode := newMode } := by
  unfold mode leave_active enter_mode
  simp only [bind]
  rw [Drv.bind_run]
  simp only [read_currentMode, hne, if_false]
  rw [Drv.bind_run]
  simp only [set_currentMode]
  generalize (decide (w.currentMode = MODE_PRX) || decide (w.currentMode = MODE_PTX)) = b
  cases b
  · rfl
  · simp only [if_true, Drv.bind_assoc]

theorem leave_active_trace {hw : Hardware H} {b : Bool} {w w1 : nrf24l01plus H}
    (h : leave_active hw b w = (some (), w1)) :
    w1.currentMode = w.currentMode ∧ w1.last_status = w.last_status ∧
      w1.trace = w.trace ++
        (if b then [Event.ce_write false, Event.ce_flush, Event.wait_us 130] else []) := by
  unfold leave_active at h
  cases b with
  | false =>
    simp only [Bool.false_eq_true, if_false, pure, Drv.pure_run, Prod.mk.injEq, true_and] at h
    subst h
    simp
  | true =>
    simp only [if_true, bind] at h
    obtain ⟨_, wa, ha, h⟩ := Drv.bind_ok h
    obtain ⟨_, wb, hb, h⟩ := Drv.bind_ok h
    obtain ⟨m1, l1, t1⟩ := ce_write_trace ha
    obtain ⟨m2, l2, t2⟩ := ce_flush_trace hb
    obtain ⟨m3, l3, t3⟩ := wait_us_trace h
    refine ⟨by rw [m3, m2, m1], by rw [l3, l2, l1], ?_⟩
    rw [t3, t2, t1]
    simp

theorem read_byte_trace {hw : Hardware H} {address : Nat} {w w1 : nrf24l01plus H} {r : List Nat}
    (ha : address < 256) (hb : register_bytes address = 1)
    (h : read_register hw address true false w = (some r, w1)) :
    ∃ status value, value < 256 ∧ r = [value] ∧
      w1.currentMode = w.currentMode ∧ w1.last_status = status ∧
      w1.trace = w.trace ++ read_events address status value := by
  obtain ⟨status, _, hlen, hlt, hm, hl, ht⟩ := read_register_trace h
  rw [hb] at hlen ht
  obtain ⟨value, rfl⟩ := List.length_eq_one.mp hlen
  refine ⟨status, value, hlt value (by simp), rfl, hm, hl, ?_⟩
  rw [ht]
  simp [read_events, payload_event, NRF_INSTRUCTION.R_REGISTER, to_uint8_of_lt ha]

theorem write_byte_trace {hw : Hardware H} {address value : Nat} {w w1 : nrf24l01plus H}
    (ha : address < 256) (hb : register_bytes address = 1)
    (h : write_register hw address [value] false w = (some (), w1)) :
    ∃ status,
      w1.currentMode = w.currentMode ∧ w1.last_status = status ∧
      w1.trace = w.trace ++ write_events address status value := by
  obtain ⟨status, _, hm, hl, ht⟩ := write_register_trace h
  rw [hb] at ht
  refine ⟨status, hm, hl, ?_⟩
  rw [ht]
  have h8 : to_uint8 (NRF_INSTRUCTION.W_REGISTER ||| address) = 0x20 ||| address :=
    to_uint8_of_lt (@Nat.or_lt_two_pow 0x20 address 8 (by decide) ha)
  simp [write_events, payload_event, h8]

theorem enter_mode_ptx_trace {hw : Hardware H} {w w1 : nrf24l01plus H}
    (h : enter_mode hw 1 w = (some (), w1)) :
    ∃ s1 c s2, c < 256 ∧ w1.currentMode = w.currentMode ∧
      w1.trace = w.trace ++ (read_events 0x00 s1 c ++ write_events 0x00 s2 (c &&& 0xFE)) := by
  simp only [enter_mode, bind, write_register_value] at h
  obtain ⟨r, wa, ha, h⟩ := Drv.bind_ok h
  obtain ⟨s1, c, hc, hr, m1, _, t1⟩ :=
    read_byte_trace (by decide : NRF_REGISTER.CONFIG < 256) (by decide) ha
  rw [hr, List.headD_cons, NRF_CONFIG.CONFIG_PRIM_RX, clear_bit0 c hc] at h
  obtain ⟨s2, m2, _, t2⟩ :=
    write_byte_trace (by decide : NRF_REGISTER.CONFIG < 256) (by decide) h
  refine ⟨s1, c, s2, hc, by rw [m2, m1], ?_⟩
  rw [t2, t1]
  simp [NRF_REGISTER.CONFIG]

theorem enter_mode_prx_trace {hw : Hardware H} {w w1 : nrf24l01plus H}
    (h : enter_mode hw 2 w = (some (), w1)) :
    ∃ s1 c s2, c < 256 ∧ w1.currentMode = w.currentMode ∧
      w1.trace = w.trace ++ (read_events 0x00 s1 c ++ write_events 0x00 s2 (c ||| 0x01) ++
        [Event.ce_write true, Event.ce_flush, Event.wait_us 130]) := by
  simp only [enter_mode, bind, write_register_value] at h
  obtain ⟨r, wa, ha, h⟩ := Drv.bind_ok h
  obtain ⟨_, wb, hb, h⟩ := Drv.bind_ok h
  obtain ⟨_, wc, hc, h⟩ := Drv.bind_ok h
  obtain ⟨_, wd, hd, h⟩ := Drv.bind_ok h
  obtain ⟨s1, c, hc8, hr, m1, _, t1⟩ :=
    read_byte_trace (by decide : NRF_REGISTER.CONFIG < 256) (by decide) ha
  rw [hr, List.headD_cons, NRF_CONFIG.CONFIG_PRIM_RX, set_bit0 c hc8] at hb
  obtain ⟨s2, m2, _, t2⟩ :=
    write_byte_trace (by decide : NRF_REGISTER.CONFIG < 256) (by decide) hb
  obtain ⟨m3, _, t3⟩ := ce_write_trace hc
  obtain ⟨m4, _, t4⟩ := ce_flush_trace hd
  obtain ⟨m5, _, t5⟩ := wait_us_trace h
  refine ⟨s1, c, s2, hc8, by rw [m5, m4, m3, m2, m1], ?_⟩
  rw [t5, t4, t3, t2, t1]
  simp [NRF_REGISTER.CONFIG]

theorem enter_mode_other (hw : Hardware H) {newMode : Nat} (h1 : newMode ≠ 1)
    (h2 : newMode ≠ 2) (w : nrf24l01plus H) : enter_mode hw newMode w = (some (), w) := by
  unfold enter_mode
  split
  · exact absurd rfl h1
  · exact absurd rfl h2
  · rfl

theorem mode_steps {hw : Hardware H} {newMode : Nat} {w w1 : nrf24l01plus H}
    (hne : w.currentMode ≠ newMode) (h : mode hw newMode w = (some (), w1)) :
    ∃ wa, leave_active hw (w.currentMode = MODE_PRX || w.currentMode = MODE_PTX)
        { w with currentMode := newMode } = (some (), wa) ∧
      enter_mode hw newMode wa = (some (), w1) := by
  rw [mode_change hw newMode w hne] at h
  obtain ⟨_, wa, ha, h⟩ := Drv.bind_ok h
  exact ⟨wa, ha, h⟩

/-! ## Operations that keep the mode, operations that complete -/

theorem keepsMode_bind {α β : Type} {x : Drv H α} {f : α → Drv H β} (hx : KeepsMode x)
    (hf : ∀ a, KeepsMode (f a)) : KeepsMode (Drv.bind x f) := by
  intro w
  rw [Drv.bind_run]
  have h1 := hx w
  rcases hxw : x w with ⟨_ | a, w1⟩
  · rw [hxw] at h1
    exact h1
  · rw [hxw] at h1
    exact (hf a w1).trans h1

theorem keepsMode_pure {α : Type} (a : α) : KeepsMode (Drv.pure a : Drv H α) := fun _ => rfl

theorem keepsMode_write_read (hw : Hardware H) (n : Nat) (o : Option (List Nat)) (i : Bool) :
    KeepsMode (transaction_write_read hw n o i) := by
  intro w
  unfold transaction_write_read
  cases hw.write_read n (o.map (List.take n)) w.hw <;> rfl

theorem keepsMode_write_read_reverse (hw : Hardware H) (n : Nat) (o : Option (List Nat))
    (i : Bool) : KeepsMode (transaction_write_read_reverse hw n o i) := by
  intro w
  unfold transaction_write_read_reverse
  cases hw.write_read_reverse n (o.map (List.take n)) w.hw <;> rfl

theorem keepsMode_ce_write (hw : Hardware H) (v : Bool) : KeepsMode (ce_write hw v) := by
  intro w
  unfold ce_write
  cases hw.ce_write v w.hw <;> rfl

theorem keepsMode_ce_flush (hw : Hardware H) : KeepsMode (ce_flush hw) := by
  intro w
  unfold ce_flush
  cases hw.ce_flush w.hw <;> rfl

theorem keepsMode_wait_us (hw : Hardware H) (us : Nat) : KeepsMode (wait_us hw us) :=
  fun _ => rfl

theorem keepsMode_send_command (hw : Hardware H) (c n : Nat) (o : Option (List Nat))
    (i l : Bool) : KeepsMode (send_command hw c o n i l) := by
  intro w
  unfold send_command transaction
  simp only [bind]
  refine (keepsMode_bind (keepsMode_write_read hw 1 _ true) ?_ _).trans rfl
  intro status
  refine keepsMode_bind (fun _ => rfl) ?_
  intro _
  by_cases hn : n = 0
  · simp only [hn, if_true]
    exact keepsMode_pure _
  · simp only [hn, if_false]
    cases l
    · exact keepsMode_write_read hw n o i
    · exact keepsMode_write_read_reverse hw n o i

theorem keepsMode_read_register (hw : Hardware H) (a : Nat) (i l : Bool) :
    KeepsMode (read_register hw a i l) := keepsMode_send_command hw _ _ _ i l

theorem keepsMode_write_register (hw : Hardware H) (a : Nat) (d : List Nat) (l : Bool) :
    KeepsMode (write_register hw a d l) :=
  keepsMode_bind (keepsMode_send_command hw _ _ _ false l) (fun _ => keepsMode_pure _)

theorem keepsMode_leave_active (hw : Hardware H) (b : Bool) : KeepsMode (leave_active hw b) := by
  unfold leave_active
  cases b
  · exact keepsMode_pure _
  · exact keepsMode_bind (keepsMode_ce_write hw false) (fun _ =>
      keepsMode_bind (keepsMode_ce_flush hw) (fun _ => keepsMode_wait_us hw 130))

theorem keepsMode_enter_mode (hw : Hardware H) (newMode : Nat) :
    KeepsMode (enter_mode hw newMode) := by
  unfold enter_mode
  split
  · exact keepsMode_bind (keepsMode_read_register hw _ true false) (fun _ =>
      keepsMode_write_register hw _ _ false)
  · exact keepsMode_bind (keepsMode_read_register hw _ true false) (fun _ =>
      keepsMode_bind (keepsMode_write_register hw _ _ false) (fun _ =>
        keepsMode_bind (keepsMode_ce_write hw true) (fun _ =>
          keepsMode_bind (keepsMode_ce_flush hw) (fun _ => keepsMode_wait_us hw 130))))
  · exact keepsMode_pure _

theorem completes_bind {α β : Type} {x : Drv H α} {f : α → Drv H β} (hx : Completes x)
    (hf : ∀ a, Completes (f a)) : Completes (Drv.bind x f) := by
  intro w
  rw [Drv.bind_run]
  have h1 := hx w
  rcases hxw : x w with ⟨_ | a, w1⟩
  · rw [hxw] at h1
    exact absurd rfl h1
  · exact hf a w1

theorem completes_pure {α : Type} (a : α) : Completes (Drv.pure a : Drv H α) := by
  intro w
  simp [Drv.pure_run]

theorem completes_unit {x : Drv H Unit} (hx : Completes x) (w : nrf24l01plus H) :
    (x w).1 = some () := by
  have h := hx w
  rcases hxw : (x w).1 with _ | u
  · exact absurd hxw h
  · rfl

theorem completes_write_read {hw : Hardware H} (hrel : Reliable hw) (n : Nat)
    (o : Option (List Nat)) (i : Bool) : Completes (transaction_write_read hw n o i) := by
  intro w
  unfold transaction_write_read
  have h := hrel.1 n (o.map (List.take n)) w.hw
  rcases hx : hw.write_read n (o.map (List.take n)) w.hw with _ | ⟨f, h1⟩
  · exact absurd hx h
  · simp

theorem completes_write_read_reverse {hw : Hardware H} (hrel : Reliable hw) (n : Nat)
    (o : Option (List Nat)) (i : Bool) : Completes (transaction_write_read_reverse hw n o i) := by
  intro w
  unfold transaction_write_read_reverse
  have h := hrel.2.1 n (o.map (List.take n)) w.hw
  rcases hx : hw.write_read_reverse n (o.map (List.take n)) w.hw with _ | ⟨f, h1⟩
  · exact absurd hx h
  · simp

theorem completes_ce_write {hw : Hardware H} (hrel : Reliable hw) (v : Bool) :
    Completes (ce_write hw v) := by
  intro w
  unfold ce_write
  have h := hrel.2.2.1 v w.hw
  rcases hx : hw.ce_write v w.hw with _ | h1
  · exact absurd hx h
  · simp

theorem completes_ce_flush {hw : Hardware H} (hrel : Reliable hw) : Completes (ce_flush hw) := by
  intro w
  unfold ce_flush
  have h := hrel.2.2.2 w.hw
  rcases hx : hw.ce_flush w.hw with _ | h1
  · exact absurd hx h
  · simp

theorem completes_wait_us (hw : Hardware H) (us : Nat) : Completes (wait_us hw us) := by
  intro w
  simp [wait_us]

theorem completes_send_command {hw : Hardware H} (hrel : Reliable hw) (c n : Nat)
    (o : Option (List Nat)) (i l : Bool) : Completes (send_command hw c o n i l) := by
  intro w
  unfold send_command transaction
  simp only [bind]
  refine completes_bind (completes_write_read hrel 1 _ true) ?_ _
  intro status
  refine completes_bind (fun _ => by simp [set_last_status]) ?_
  intro _
  by_cases hn : n = 0
  · simp only [hn, if_true]
    exact completes_pure _
  · simp only [hn, if_false]
    cases l
    · exact completes_write_read hrel n o i
    · exact completes_write_read_reverse hrel n o i

theorem completes_read_register {hw : Hardware H} (hrel : Reliable hw) (a : Nat) (i l : Bool) :
    Completes (read_register hw a i l) := completes_send_command hrel _ _ _ i l

theorem completes_write_register {hw : Hardware H} (hrel : Reliable hw) (a : Nat)
    (d : List Nat) (l : Bool) : Completes (write_register hw a d l) :=
  completes_bind (completes_send_command hrel _ _ _ false l) (fun _ => completes_pure _)

theorem completes_leave_active {hw : Hardware H} (hrel : Reliable hw) (b : Bool) :
    Completes (leave_active hw b) := by
  unfold leave_active
  cases b
  · exact completes_pure _
  · exact completes_bind (completes_ce_write hrel false) (fun _ =>
      completes_bind (completes_ce_flush hrel) (fun _ => completes_wait_us hw 130))

theorem completes_enter_mode {hw : Hardware H} (hrel : Reliable hw) (newMode : Nat) :
    Completes (enter_mode hw newMode) := by
  unfold enter_mode
  split
  · exact completes_bind (completes_read_register hrel _ true false) (fun _ =>
      completes_write_register hrel _ _ false)
  · exact completes_bind (completes_read_register hrel _ true false) (fun _ =>
      completes_bind (completes_write_register hrel _ _ false) (fun _ =>
        completes_bind (completes_ce_write hrel true) (fun _ =>
          completes_bind (completes_ce_flush hrel) (fun _ => completes_wait_us hw 130))))
  · exact completes_pure _

theorem completes_mode {hw : Hardware H} (hrel : Reliable hw) (newMode : Nat) :
    Completes (mode hw newMode) := by
  intro w
  by_cases hne : w.currentMode = newMode
  · subst hne
    simp [mode, bind, Drv.bind_run, read_currentMode, pure, Drv.pure_run]
  · rw [mode_change hw newMode w hne]
    exact completes_bind (completes_leave_active hrel _) (fun _ =>
      completes_enter_mode hrel newMode) _

theorem completes_tx_send_payload {hw : Hardware H} (hrel : Reliable hw) :
    Completes (tx_send_payload hw) :=
  completes_bind (completes_ce_write hrel true) (fun _ =>
    completes_bind (completes_wait_us hw 10) (fun _ => completes_ce_write hrel false))

theorem completes_tx_write_payload {hw : Hardware H} (hrel : Reliable hw) (data : List Nat)
    (size : Nat) (noack : Bool) : Completes (tx_write_payload hw data size noack) := by
  cases noack
  · exact completes_bind (completes_send_command hrel _ _ _ false false) (fun _ =>
      completes_tx_send_payload hrel)
  · exact completes_bind (completes_send_command hrel _ _ _ false false) (fun _ =>
      completes_tx_send_payload hrel)

theorem completes_rx_auto_acknowledgement {hw : Hardware H} (hrel : Reliable hw) (p : Nat)
    (v : Bool) : Completes (rx_auto_acknowledgement hw p v) :=
  completes_bind (completes_read_register hrel _ true false) (fun _ =>
    completes_write_register hrel _ _ false)

theorem completes_rx_enabled {hw : Hardware H} (hrel : Reliable hw) (p : Nat) (v : Bool) :
    Completes (rx_enabled hw p v) :=
  completes_bind (completes_read_register hrel _ true false) (fun _ =>
    completes_write_register hrel _ _ false)

theorem completes_rx_set_dynamic_payload_length {hw : Hardware H} (hrel : Reliable hw)
    (p : Nat) (v : Bool) : Completes (rx_set_dynamic_payload_length hw p v) :=
  completes_bind (completes_read_register hrel _ true false) (fun _ =>
    completes_write_register hrel _ _ false)

theorem mock_reliable : Reliable mock :=
  ⟨fun _ _ _ => by simp [mock], fun _ _ _ => by simp [mock], fun _ _ => by simp [mock],
    fun _ => by simp [mock]⟩

/-! ## Command framing -/

/-- C1: a completed `send_command` first exchanges exactly one byte, the
command word, and stores the status byte answered to it in `last_status`;
with `n = 0` nothing else is exchanged, with `n > 0` exactly one more exchange
of `n` bytes follows, byte-reversed exactly when `lsbyte_first` is set.  The
whole command sits between one acquire and one release of chip-select.  On
hardware that never fails the command always completes. -/
theorem send_command_framing (hw : Hardware H) (command_word n : Nat)
    (data_out : Option (List Nat)) (data_in lsbyte_first : Bool) (w : nrf24l01plus H) :
    (Reliable hw →
      (send_command hw command_word data_out n data_in lsbyte_first w).1 ≠ none) ∧
    ∀ r, (send_command hw command_word data_out n data_in lsbyte_first w).1 = some r →
    ∃ status reply, reply.length = n ∧
      (send_command hw command_word data_out n data_in lsbyte_first w).2.last_status = status ∧
      (send_command hw command_word data_out n data_in lsbyte_first w).2.trace =
        w.trace ++ ([Event.csn_acquire,
            Event.write_read 1 (some [command_word]) (some [status])] ++
          (if n = 0 then []
           else if lsbyte_first then
             [Event.write_read_reverse n (data_out.map (List.take n))
               (if data_in then some reply else none)]
           else
             [Event.write_read n (data_out.map (List.take n))
               (if data_in then some reply else none)]) ++
          [Event.csn_release]) := by
  refine ⟨fun hrel => completes_send_command hrel _ _ _ _ _ w, fun r h => ?_⟩
  obtain ⟨status, reply, _, hlen, _, _, _, hl, ht⟩ := send_command_trace (run_eq h)
  refine ⟨status, reply, hlen, hl, ?_⟩
  rw [ht]
  by_cases hn : n = 0
  · simp [hn]
  · cases lsbyte_first <;> simp [hn, payload_event]

/-- Witness for C1: a reversed five-byte read of TX_ADDR and an opcode-only
NOP on the mock chip. -/
theorem send_command_framing_witness :
    (send_command mock 0x10 none 5 true true fresh).1 = some [0xE7, 0xE7, 0xE7, 0xE7, 0xE7] ∧
    (∃ status reply, reply.length = 5 ∧
      (send_command mock 0x10 none 5 true true fresh).2.last_status = status ∧
      (send_command mock 0x10 none 5 true true fresh).2.trace =
        fresh.trace ++ ([Event.csn_acquire, Event.write_read 1 (some [0x10]) (some [status])] ++
          (if 5 = 0 then []
           else if true then
             [Event.write_read_reverse 5 ((none : Option (List Nat)).map (List.take 5))
               (if true then some reply else none)]
           else
             [Event.write_read 5 ((none : Option (List Nat)).map (List.take 5))
               (if true then some reply else none)]) ++
          [Event.csn_release])) ∧
    (send_command mock 0xFF none 0 false false fresh).2.trace =
      [Event.csn_acquire, Event.write_read 1 (some [0xFF]) (some [0x0E]), Event.csn_release] :=
  ⟨rfl,
   (send_command_framing mock 0x10 5 none true true fresh).2 [0xE7, 0xE7, 0xE7, 0xE7, 0xE7] rfl,
   rfl⟩

/-- C2: a completed `read_register(a)` is exactly one command with command
word `R_REGISTER | a = a`, `n = register_bytes(a)` and a null output buffer; a
completed `write_register(a, data)` is exactly one command with command word
`W_REGISTER | a = 0x20 | a`, `n = register_bytes(a)` and a null input buffer.
Both hand `lsbyte_first` on unchanged: the payload exchange is byte-reversed
exactly when the flag is set.  On hardware that never fails both complete. -/
theorem register_access_framing (hw : Hardware H) (a : Nat) (ha : a < 256)
    (lsbyte_first : Bool) (w : nrf24l01plus H) :
    (Reliable hw → ∀ data_in data,
      (read_register hw a data_in lsbyte_first w).1 ≠ none ∧
      (write_register hw a data lsbyte_first w).1 = some ()) ∧
    (∀ data_in r, (read_register hw a data_in lsbyte_first w).1 = some r →
      ∃ status reply, reply.length = register_bytes a ∧
        (read_register hw a data_in lsbyte_first w).2.trace =
          w.trace ++ [Event.csn_acquire,
            Event.write_read 1 (some [a]) (some [status]),
            (if lsbyte_first then
               Event.write_read_reverse (register_bytes a) none
                 (if data_in then some reply else none)
             else
               Event.write_read (register_bytes a) none
                 (if data_in then some reply else none)),
            Event.csn_release]) ∧
    (∀ data, (write_register hw a data lsbyte_first w).1 = some () →
      ∃ status,
        (write_register hw a data lsbyte_first w).2.trace =
          w.trace ++ [Event.csn_acquire,
            Event.write_read 1 (some [0x20 ||| a]) (some [status]),
            (if lsbyte_first then
               Event.write_read_reverse (register_bytes a)
                 (some (data.take (register_bytes a))) none
             else
               Event.write_read (register_bytes a)
                 (some (data.take (register_bytes a))) none),
            Event.csn_release]) := by
  have hr : to_uint8 (NRF_INSTRUCTION.R_REGISTER ||| a) = a := by
    simp [NRF_INSTRUCTION.R_REGISTER, to_uint8_of_lt ha]
  have hw8 : to_uint8 (NRF_INSTRUCTION.W_REGISTER ||| a) = 0x20 ||| a := by
    apply to_uint8_of_lt
    exact @Nat.or_lt_two_pow 0x20 a 8 (by decide) ha
  have hn := register_bytes_ne_zero a
  refine ⟨fun hrel data_in data => ⟨completes_read_register hrel _ _ _ w,
    completes_unit (completes_write_register hrel _ _ _) w⟩, ?_, ?_⟩
  · intro data_in r h
    obtain ⟨status, reply, _, hlen, _, _, _, _, ht⟩ :=
      send_command_trace (run_eq (show (send_command hw _ none (register_bytes a) data_in
        lsbyte_first w).1 = some r from h))
    refine ⟨status, reply, hlen, ?_⟩
    rw [hr] at ht
    rw [show read_register hw a data_in lsbyte_first w =
      send_command hw a none (register_bytes a) data_in lsbyte_first w by
        rw [read_register, hr], ht]
    cases lsbyte_first <;> simp [payload_event, hn]
  · intro data h
    obtain ⟨status, _, _, _, ht⟩ := write_register_trace (run_eq h)
    refine ⟨status, ?_⟩
    rw [ht, hw8]
    cases lsbyte_first <;> simp [payload_event]

/-- Witness for C2: RX_ADDR_P0 read and written byte-reversed on the mock
chip. -/
theorem register_access_framing_witness :
    (∃ status reply, reply.length = register_bytes 0x0A ∧
      (read_register mock 0x0A true true fresh).2.trace =
        fresh.trace ++ [Event.csn_acquire,
          Event.write_read 1 (some [0x0A]) (some [status]),
          (if true then
             Event.write_read_reverse (register_bytes 0x0A) none
               (if true then some reply else none)
           else
             Event.write_read (register_bytes 0x0A) none
               (if true then some reply else none)),
          Event.csn_release]) ∧
    (∃ status,
      (write_register mock 0x0A [1, 2, 3, 4, 5] true fresh).2.trace =
        fresh.trace ++ [Event.csn_acquire,
          Event.write_read 1 (some [0x20 ||| 0x0A]) (some [status]),
          (if true then
             Event.write_read_reverse (register_bytes 0x0A)
               (some ([1, 2, 3, 4, 5].take (register_bytes 0x0A))) none
           else
             Event.write_read (register_bytes 0x0A)
               (some ([1, 2, 3, 4, 5].take (register_bytes 0x0A))) none),
          Event.csn_release]) :=
  ⟨(register_access_framing mock 0x0A (by decide) true fresh).2.1 true
      [0xE7, 0xE7, 0xE7, 0xE7, 0xE7] rfl,
   (register_access_framing mock 0x0A (by decide) true fresh).2.2 [1, 2, 3, 4, 5] rfl⟩

/-- C3: `register_bytes` is total, returns 5 exactly for RX_ADDR_P0 (0x0A),
RX_ADDR_P1 (0x0B) and TX_ADDR (0x10), and 1 for every other address. -/
theorem register_bytes_spec (a : Nat) :
    (register_bytes a = 5 ↔ (a = 0x0A ∨ a = 0x0B ∨ a = 0x10)) ∧
    (¬(a = 0x0A ∨ a = 0x0B ∨ a = 0x10) → register_bytes a = 1) ∧
    (register_bytes a = 5 ∨ register_bytes a = 1) := by
  unfold register_bytes NRF_REGISTER.RX_ADDR_P0 NRF_REGISTER.RX_ADDR_P1 NRF_REGISTER.TX_ADDR
  by_cases h : a = 0x0A ∨ a = 0x0B ∨ a = 0x10
  · simp [h]
  · simp [h]

/-! ## Mode state machine -/

/-- C4: from mode NONE, a completed `mode(PRIMARY_RECEIVE)` produces exactly
one read of CONFIG yielding `c`, one write of CONFIG with `c | 0x01` (bit 0
set, every other bit as in `c`), then chip-enable written true, flushed, and a
wait of 130 microseconds; afterwards `get_mode()` is PRIMARY_RECEIVE.  On
hardware that never fails the transition always completes. -/
theorem mode_none_to_receive (hw : Hardware H) (w : nrf24l01plus H)
    (hmode : w.currentMode = MODE_NONE) :
    (Reliable hw → (mode hw MODE_PRX w).1 = some ()) ∧
    ((mode hw MODE_PRX w).1 = some () →
    ∃ s1 c s2, c < 256 ∧
      (mode hw MODE_PRX w).2.trace = w.trace ++
        [Event.csn_acquire, Event.write_read 1 (some [0x00]) (some [s1]),
          Event.write_read 1 none (some [c]), Event.csn_release,
          Event.csn_acquire, Event.write_read 1 (some [0x20]) (some [s2]),
          Event.write_read 1 (some [c ||| 0x01]) none, Event.csn_release,
          Event.ce_write true, Event.ce_flush, Event.wait_us 130] ∧
      (c ||| 0x01).testBit 0 = true ∧
      (∀ i, i ≠ 0 → (c ||| 0x01).testBit i = c.testBit i) ∧
      get_mode (mode hw MODE_PRX w).2 = MODE_PRX) := by
  refine ⟨fun hrel => completes_unit (completes_mode hrel _) w, fun h => ?_⟩
  have hne : w.currentMode ≠ MODE_PRX := by rw [hmode]; decide
  obtain ⟨wa, ha, hb⟩ := mode_steps hne (run_eq h)
  obtain ⟨ma, _, ta⟩ := leave_active_trace ha
  obtain ⟨s1, c, s2, hc, mb, tb⟩ := enter_mode_prx_trace hb
  refine ⟨s1, c, s2, hc, ?_, ?_, ?_, ?_⟩
  · rw [tb, ta]
    simp [hmode, MODE_NONE, MODE_PRX, MODE_PTX, read_events, write_events]
  · simp [Nat.testBit_or]
  · intro i hi
    simp [Nat.testBit_or, Nat.testBit_one_eq_true_iff_self_eq_zero, hi]
  · rw [get_mode, mb, ma]

/-- Witness for C4: the transition on a reset mock chip, whose CONFIG reads
back as 0x08. -/
theorem mode_none_to_receive_witness :
    (mode mock MODE_PRX fresh).1 = some () ∧
    ∃ s1 c s2, c < 256 ∧
      (mode mock MODE_PRX fresh).2.trace = fresh.trace ++
        [Event.csn_acquire, Event.write_read 1 (some [0x00]) (some [s1]),
          Event.write_read 1 none (some [c]), Event.csn_release,
          Event.csn_acquire, Event.write_read 1 (some [0x20]) (some [s2]),
          Event.write_read 1 (some [c ||| 0x01]) none, Event.csn_release,
          Event.ce_write true, Event.ce_flush, Event.wait_us 130] ∧
      (c ||| 0x01).testBit 0 = true ∧
      (∀ i, i ≠ 0 → (c ||| 0x01).testBit i = c.testBit i) ∧
      get_mode (mode mock MODE_PRX fresh).2 = MODE_PRX :=
  ⟨rfl, (mode_none_to_receive mock fresh rfl).2 rfl⟩

/-- C5: from every mode other than PRIMARY_TRANSMIT, a completed
`mode(PRIMARY_TRANSMIT)` performs exactly one read of CONFIG yielding `c`
followed by exactly one write of CONFIG with `c & 0xFE` (bit 0 cleared, every
other bit as in `c`), preceded by the chip-enable release steps exactly when
the old mode was PRIMARY_RECEIVE, and never writes chip-enable true.  On
hardware that never fails the transition always completes. -/
theorem mode_to_transmit (hw : Hardware H) (w : nrf24l01plus H)
    (hmode : w.currentMode ≠ MODE_PTX) :
    (Reliable hw → (mode hw MODE_PTX w).1 = some ()) ∧
    ((mode hw MODE_PTX w).1 = some () →
    ∃ s1 c s2 evs, c < 256 ∧
      (mode hw MODE_PTX w).2.trace = w.trace ++ evs ∧
      evs = (if w.currentMode = MODE_PRX then
              [Event.ce_write false, Event.ce_flush, Event.wait_us 130]
             else []) ++
        [Event.csn_acquire, Event.write_read 1 (some [0x00]) (some [s1]),
          Event.write_read 1 none (some [c]), Event.csn_release,
          Event.csn_acquire, Event.write_read 1 (some [0x20]) (some [s2]),
          Event.write_read 1 (some [c &&& 0xFE]) none, Event.csn_release] ∧
      (c &&& 0xFE).testBit 0 = false ∧
      (∀ i, i ≠ 0 → (c &&& 0xFE).testBit i = c.testBit i) ∧
      Event.ce_write true ∉ evs) := by
  refine ⟨fun hrel => completes_unit (completes_mode hrel _) w, fun h => ?_⟩
  obtain ⟨wa, ha, hb⟩ := mode_steps hmode (run_eq h)
  obtain ⟨_, _, ta⟩ := leave_active_trace ha
  obtain ⟨s1, c, s2, hc, _, tb⟩ := enter_mode_ptx_trace hb
  have hbits : ∀ i, (c &&& 0xFE).testBit i = (!decide (i = 0) && c.testBit i) := by
    intro i
    have := testBit_clear_bit hc (by decide : 0 < 32) i
    rwa [int_shl_one (by decide), pow_zero, clear_bit0 c hc] at this
  refine ⟨s1, c, s2, _, hc, ?_, rfl, ?_, ?_, ?_⟩
  · rw [tb, ta]
    simp [hmode, read_events, write_events]
  · simp [hbits]
  · intro i hi
    simp [hbits, hi]
  · by_cases hp : w.currentMode = MODE_PRX <;> simp [hp]

/-- Witness for C5: PRIMARY_RECEIVE to PRIMARY_TRANSMIT on the mock chip. -/
theorem mode_to_transmit_witness :
    (mode mock MODE_PTX (mode mock MODE_PRX fresh).2).1 = some () ∧
    ∃ s1 c s2 evs, c < 256 ∧
      (mode mock MODE_PTX (mode mock MODE_PRX fresh).2).2.trace =
        (mode mock MODE_PRX fresh).2.trace ++ evs ∧
      evs = (if (mode mock MODE_PRX fresh).2.currentMode = MODE_PRX then
              [Event.ce_write false, Event.ce_flush, Event.wait_us 130]
             else []) ++
        [Event.csn_acquire, Event.write_read 1 (some [0x00]) (some [s1]),
          Event.write_read 1 none (some [c]), Event.csn_release,
          Event.csn_acquire, Event.write_read 1 (some [0x20]) (some [s2]),
          Event.write_read 1 (some [c &&& 0xFE]) none, Event.csn_release] ∧
      (c &&& 0xFE).testBit 0 = false ∧
      (∀ i, i ≠ 0 → (c &&& 0xFE).testBit i = c.testBit i) ∧
      Event.ce_write true ∉ evs :=
  ⟨rfl, (mode_to_transmit mock (mode mock MODE_PRX fresh).2 (by decide)).2 rfl⟩

/-- C6: a completed `mode(M)` called in PRIMARY_TRANSMIT or PRIMARY_RECEIVE
with `M` different from the current mode starts with chip-enable written
false, chip-enable flushed and a wait of 130 microseconds; every byte exchange
of the transition comes after these three events.  On hardware that never
fails the call always completes. -/
theorem mode_leaves_active_first (hw : Hardware H) (w : nrf24l01plus H) (M : Nat)
    (hact : w.currentMode = MODE_PTX ∨ w.currentMode = MODE_PRX) (hne : M ≠ w.currentMode) :
    (Reliable hw → (mode hw M w).1 = some ()) ∧
    ((mode hw M w).1 = some () →
    ∃ rest, (mode hw M w).2.trace =
        w.trace ++ ([Event.ce_write false, Event.ce_flush, Event.wait_us 130] ++ rest) ∧
      (∀ e ∈ [Event.ce_write false, Event.ce_flush, Event.wait_us 130],
        e.is_exchange = false)) := by
  refine ⟨fun hrel => completes_unit (completes_mode hrel _) w, fun h => ?_⟩
  obtain ⟨wa, ha, hb⟩ := mode_steps (Ne.symm hne) (run_eq h)
  obtain ⟨_, _, ta⟩ := leave_active_trace ha
  have hact2 : (decide (w.currentMode = MODE_PRX) || decide (w.currentMode = MODE_PTX)) = true := by
    rcases hact with h1 | h1 <;> simp [h1]
  rw [hact2, if_pos rfl] at ta
  have hrest : ∃ rest, (mode hw M w).2.trace = wa.trace ++ rest := by
    by_cases h1 : M = 1
    · subst h1
      obtain ⟨s1, c, s2, _, _, tb⟩ := enter_mode_ptx_trace hb
      exact ⟨_, tb⟩
    · by_cases h2 : M = 2
      · subst h2
        obtain ⟨s1, c, s2, _, _, tb⟩ := enter_mode_prx_trace hb
        exact ⟨_, tb⟩
      · have := enter_mode_other hw h1 h2 wa
        rw [this] at hb
        refine ⟨[], ?_⟩
        simp only [Prod.mk.injEq, true_and] at hb
        rw [← hb]
        simp
  obtain ⟨rest, hrest⟩ := hrest
  refine ⟨rest, ?_, ?_⟩
  · rw [hrest, ta]
    simp
  · intro e he
    simp only [List.mem_cons, List.mem_singleton, List.not_mem_nil, or_false] at he
    rcases he with rfl | rfl | rfl <;> rfl

/-- Witness for C6: PRIMARY_RECEIVE to NONE on the mock chip. -/
theorem mode_leaves_active_first_witness :
    (mode mock MODE_NONE (mode mock MODE_PRX fresh).2).1 = some () ∧
    ∃ rest, (mode mock MODE_NONE (mode mock MODE_PRX fresh).2).2.trace =
        (mode mock MODE_PRX fresh).2.trace ++
          ([Event.ce_write false, Event.ce_flush, Event.wait_us 130] ++ rest) ∧
      (∀ e ∈ [Event.ce_write false, Event.ce_flush, Event.wait_us 130],
        e.is_exchange = false) :=
  ⟨rfl, (mode_leaves_active_first mock (mode mock MODE_PRX fresh).2 MODE_NONE
    (Or.inr rfl) (by decide)).2 rfl⟩

/-- C7: `mode(M)` with `M` equal to the current mode is a no-op: it completes
and leaves the whole driver value unchanged, so no byte is exchanged,
chip-enable is neither written nor flushed, nothing is waited for, and
`currentMode` and `last_status` keep their values. -/
theorem mode_same_is_noop (hw : Hardware H) (w : nrf24l01plus H) :
    mode hw w.currentMode w = (some (), w) ∧
    (mode hw w.currentMode w).2.trace = w.trace ∧
    (mode hw w.currentMode w).2.hw = w.hw ∧
    get_mode (mode hw w.currentMode w).2 = get_mode w ∧
    (mode hw w.currentMode w).2.last_status = w.last_status := by
  have h : mode hw w.currentMode w = (some (), w) := by
    simp [mode, bind, Drv.bind_run, read_currentMode, pure, Drv.pure_run]
  rw [h]
  exact ⟨rfl, rfl, rfl, rfl, rfl⟩

/-- C8, as stated, fails: on a bus whose exchanges fail, `mode(PRIMARY_TRANSMIT)`
called in mode NONE fails at the CONFIG read, the failure propagates, and
`get_mode()` returns PRIMARY_TRANSMIT, not the old mode NONE. -/
theorem mode_failure_keeps_new_mode :
    get_mode fresh = MODE_NONE ∧
    (mode broken_bus MODE_PTX fresh).1 = none ∧
    get_mode (mode broken_bus MODE_PTX fresh).2 = MODE_PTX ∧
    get_mode (mode broken_bus MODE_PTX fresh).2 ≠ get_mode fresh := by
  refine ⟨rfl, rfl, rfl, ?_⟩
  decide

/-- C8, amended: in `mode(M)` with `M` different from the current mode the new
mode is recorded before the chip-enable, delay and CONFIG steps, so
`get_mode()` returns `M` afterwards whether the call completed or a failure
propagated out of it. -/
theorem mode_records_new_mode_first (hw : Hardware H) (w : nrf24l01plus H) (M : Nat)
    (hne : M ≠ w.currentMode) :
    get_mode (mode hw M w).2 = M := by
  rw [mode_change hw M w (Ne.symm hne), get_mode]
  exact keepsMode_bind (keepsMode_leave_active hw _) (fun _ => keepsMode_enter_mode hw M) _

/-- Witness for C8, amended: the receive transition that fails on the broken
bus after chip-enable was released. -/
theorem mode_records_new_mode_first_witness :
    (mode broken_bus MODE_PRX (mode mock MODE_PTX fresh).2).1 = none ∧
    get_mode (mode broken_bus MODE_PRX (mode mock MODE_PTX fresh).2).2 = MODE_PRX :=
  ⟨rfl, mode_records_new_mode_first broken_bus (mode mock MODE_PTX fresh).2 MODE_PRX
    (by decide)⟩

/-! ## Payload write and per-pipe accessors -/

theorem tx_send_payload_trace {hw : Hardware H} {w w1 : nrf24l01plus H}
    (h : tx_send_payload hw w = (some (), w1)) :
    w1.trace = w.trace ++ [Event.ce_write true, Event.wait_us 10, Event.ce_write false] := by
  simp only [tx_send_payload, bind] at h
  obtain ⟨_, wa, ha, h⟩ := Drv.bind_ok h
  obtain ⟨_, wb, hb, h⟩ := Drv.bind_ok h
  obtain ⟨_, _, t1⟩ := ce_write_trace ha
  obtain ⟨_, _, t2⟩ := wait_us_trace hb
  obtain ⟨_, _, t3⟩ := ce_write_trace h
  rw [t3, t2, t1]
  simp

/-- C9: a completed `tx_write_payload` of a payload of `size` bytes issues
exactly one command, with command word W_TX_PAYLOAD_NO_ACK (0xB0) when `noack`
is set and W_TX_PAYLOAD (0xA0) otherwise, carrying the `size` payload bytes in
buffer order, and then pulses chip-enable: written true, a wait of 10
microseconds, written false.  On hardware that never fails the call always
completes. -/
theorem tx_write_payload_then_pulse (hw : Hardware H) (w : nrf24l01plus H) (data : List Nat)
    (size : Nat) (noack : Bool) (hsize : data.length = size) :
    (Reliable hw → (tx_write_payload hw data size noack w).1 = some ()) ∧
    ((tx_write_payload hw data size noack w).1 = some () →
    ∃ status, (tx_write_payload hw data size noack w).2.trace = w.trace ++
      ([Event.csn_acquire,
          Event.write_read 1 (some [if noack then 0xB0 else 0xA0]) (some [status])] ++
        (if size = 0 then [] else [Event.write_read size (some data) none]) ++
        [Event.csn_release,
          Event.ce_write true, Event.wait_us 10, Event.ce_write false])) := by
  refine ⟨fun hrel => completes_unit (completes_tx_write_payload hrel _ _ _) w, fun h => ?_⟩
  have h0 := run_eq h
  have key : ∀ op, (Drv.bind (send_command hw op (some data) size false false)
        (fun _ => tx_send_payload hw)) w = (some (), (tx_write_payload hw data size noack w).2) →
      ∃ status, (tx_write_payload hw data size noack w).2.trace = w.trace ++
        ([Event.csn_acquire, Event.write_read 1 (some [op]) (some [status])] ++
          (if size = 0 then [] else [Event.write_read size (some data) none]) ++
          [Event.csn_release,
            Event.ce_write true, Event.wait_us 10, Event.ce_write false]) := by
    intro op hop
    obtain ⟨_, wa, ha, hb⟩ := Drv.bind_ok hop
    obtain ⟨status, reply, _, _, _, _, _, _, ta⟩ := send_command_trace ha
    have tb := tx_send_payload_trace hb
    refine ⟨status, ?_⟩
    rw [tb, ta]
    have htake : List.take size data = data := by rw [← hsize]; exact List.take_length data
    by_cases hn : size = 0 <;> simp [hn, payload_event, htake]
  cases noack with
  | true =>
    have : tx_write_payload hw data size true w =
        (Drv.bind (send_command hw 0xB0 (some data) size false false)
          (fun _ => tx_send_payload hw)) w := rfl
    simpa using key 0xB0 (this ▸ h0)
  | false =>
    have : tx_write_payload hw data size false w =
        (Drv.bind (send_command hw 0xA0 (some data) size false false)
          (fun _ => tx_send_payload hw)) w := rfl
    simpa using key 0xA0 (this ▸ h0)

/-- Witness for C9: a three-byte payload written without acknowledgement on
the mock chip. -/
theorem tx_write_payload_then_pulse_witness :
    (tx_write_payload mock [1, 2, 3] 3 true fresh).1 = some () ∧
    ∃ status, (tx_write_payload mock [1, 2, 3] 3 true fresh).2.trace = fresh.trace ++
      ([Event.csn_acquire,
          Event.write_read 1 (some [if true then 0xB0 else 0xA0]) (some [status])] ++
        (if 3 = 0 then [] else [Event.write_read 3 (some [1, 2, 3]) none]) ++
        [Event.csn_release,
          Event.ce_write true, Event.wait_us 10, Event.ce_write false]) :=
  ⟨rfl, (tx_write_payload_then_pulse mock fresh [1, 2, 3] 3 true rfl).2 rfl⟩

theorem bit_update_trace {hw : Hardware H} {address p : Nat} {v : Bool}
    {w w1 : nrf24l01plus H} (ha : address < 256) (hb : register_bytes address = 1)
    (hp : p ≤ 5)
    (h : Drv.bind (read_register hw address true false) (fun buffer =>
        write_register hw address
          [if v then to_uint8 (buffer.headD 0 ||| int_shl 1 p)
           else to_uint8 (buffer.headD 0 &&& int_not (int_shl 1 p))] false) w = (some (), w1)) :
    BitUpdate address p v w.trace w1.trace := by
  obtain ⟨r, wa, hr, hw2⟩ := Drv.bind_ok h
  obtain ⟨s1, x, hx, hrx, _, _, t1⟩ := read_byte_trace ha hb hr
  rw [hrx, List.headD_cons] at hw2
  obtain ⟨s2, _, _, t2⟩ := write_byte_trace ha hb hw2
  refine ⟨s1, x, s2,
    (if v then to_uint8 (x ||| int_shl 1 p) else to_uint8 (x &&& int_not (int_shl 1 p))),
    ?_, ?_, ?_⟩
  · rw [t2, t1]
    simp [read_events, write_events]
  · cases v
    · simp [testBit_clear_bit hx (by omega : p < 32)]
    · simp [testBit_set_bit hx (by omega : p < 8)]
  · intro i hi
    cases v
    · simp [testBit_clear_bit hx (by omega : p < 32), hi]
    · simp [testBit_set_bit hx (by omega : p < 8), hi]

/-- C10: for a pipe index `p` in 0..5 and a flag `v`, each completed per-pipe
accessor, `rx_auto_acknowledgement(p, v)` on EN_AA (0x01), `rx_enabled(p, v)`
on EN_RXADDR (0x02) and `rx_set_dynamic_payload_length(p, v)` on DYNPD (0x1C),
performs one read of its register yielding `r` followed by one write of the
same register, and the byte written has bit `p` equal to `v` and every other
bit equal to that bit of `r`.  On hardware that never fails all three
complete. -/
theorem per_pipe_accessors_touch_one_bit (hw : Hardware H) (w : nrf24l01plus H) (p : Nat)
    (v : Bool) (hp : p ≤ 5) :
    (Reliable hw →
      (rx_auto_acknowledgement hw p v w).1 = some () ∧
      (rx_enabled hw p v w).1 = some () ∧
      (rx_set_dynamic_payload_length hw p v w).1 = some ()) ∧
    ((rx_auto_acknowledgement hw p v w).1 = some () →
      BitUpdate 0x01 p v w.trace (rx_auto_acknowledgement hw p v w).2.trace) ∧
    ((rx_enabled hw p v w).1 = some () →
      BitUpdate 0x02 p v w.trace (rx_enabled hw p v w).2.trace) ∧
    ((rx_set_dynamic_payload_length hw p v w).1 = some () →
      BitUpdate 0x1C p v w.trace (rx_set_dynamic_payload_length hw p v w).2.trace) := by
  refine ⟨fun hrel => ⟨completes_unit (completes_rx_auto_acknowledgement hrel p v) w,
    completes_unit (completes_rx_enabled hrel p v) w,
    completes_unit (completes_rx_set_dynamic_payload_length hrel p v) w⟩, fun h => ?_, fun h => ?_,
    fun h => ?_⟩
  · exact bit_update_trace (by decide : NRF_REGISTER.EN_AA < 256) (by decide) hp (run_eq h)
  · exact bit_update_trace (by decide : NRF_REGISTER.EN_RXADDR < 256) (by decide) hp (run_eq h)
  · exact bit_update_trace (by decide : NRF_REGISTER.DYNPD < 256) (by decide) hp (run_eq h)

/-- Witness for C10: pipe 5 switched on in all three registers of the mock
chip. -/
theorem per_pipe_accessors_touch_one_bit_witness :
    ((rx_auto_acknowledgement mock 5 true fresh).1 = some () ∧
      BitUpdate 0x01 5 true fresh.trace (rx_auto_acknowledgement mock 5 true fresh).2.trace) ∧
    ((rx_enabled mock 5 true fresh).1 = some () ∧
      BitUpdate 0x02 5 true fresh.trace (rx_enabled mock 5 true fresh).2.trace) ∧
    ((rx_set_dynamic_payload_length mock 5 true fresh).1 = some () ∧
      BitUpdate 0x1C 5 true fresh.trace
        (rx_set_dynamic_payload_length mock 5 true fresh).2.trace) :=
  ⟨⟨rfl, (per_pipe_accessors_touch_one_bit mock fresh 5 true (by decide)).2.1 rfl⟩,
   ⟨rfl, (per_pipe_accessors_touch_one_bit mock fresh 5 true (by decide)).2.2.1 rfl⟩,
   ⟨rfl, (per_pipe_accessors_touch_one_bit mock fresh 5 true (by decide)).2.2.2 rfl⟩⟩

/-! ## Relations respected by every member function -/

theorem steps_bind {α β : Type} {R : nrf24l01plus H → nrf24l01plus H → Prop} {hw : Hardware H}
    (hR : Respected hw R) {x : Drv H α} {f : α → Drv H β} (hx : Steps R x)
    (hf : ∀ a, Steps R (f a)) : Steps R (Drv.bind x f) := by
  intro w
  rw [Drv.bind_run]
  have h1 := hx w
  rcases hxw : x w with ⟨_ | a, w1⟩
  · rw [hxw] at h1
    exact h1
  · rw [hxw] at h1
    exact hR.trans _ _ _ h1 (hf a w1)

theorem steps_pure {α : Type} {R : nrf24l01plus H → nrf24l01plus H → Prop} {hw : Hardware H}
    (hR : Respected hw R) (a : α) : Steps R (Drv.pure a : Drv H α) :=
  fun w => hR.refl w

theorem steps_read_register {R : nrf24l01plus H → nrf24l01plus H → Prop} {hw : Hardware H}
    (hR : Respected hw R) (a : Nat) (i l : Bool) : Steps R (read_register hw a i l) :=
  fun w => hR.send_command _ _ _ i l w

theorem steps_write_register {R : nrf24l01plus H → nrf24l01plus H → Prop} {hw : Hardware H}
    (hR : Respected hw R) (a : Nat) (d : List Nat) (l : Bool) :
    Steps R (write_register hw a d l) :=
  steps_bind hR (fun w => hR.send_command _ _ _ false l w) (fun _ => steps_pure hR _)

theorem steps_leave_active {R : nrf24l01plus H → nrf24l01plus H → Prop} {hw : Hardware H}
    (hR : Respected hw R) (b : Bool) : Steps R (leave_active hw b) := by
  unfold leave_active
  cases b
  · exact steps_pure hR _
  · exact steps_bind hR (hR.ce_write false) (fun _ =>
      steps_bind hR hR.ce_flush (fun _ => hR.wait_us 130))

theorem steps_enter_mode {R : nrf24l01plus H → nrf24l01plus H → Prop} {hw : Hardware H}
    (hR : Respected hw R) (newMode : Nat) : Steps R (enter_mode hw newMode) := by
  unfold enter_mode
  split
  · exact steps_bind hR (steps_read_register hR _ true false) (fun _ =>
      steps_write_register hR _ _ false)
  · exact steps_bind hR (steps_read_register hR _ true false) (fun _ =>
      steps_bind hR (steps_write_register hR _ _ false) (fun _ =>
        steps_bind hR (hR.ce_write true) (fun _ =>
          steps_bind hR hR.ce_flush (fun _ => hR.wait_us 130))))
  · exact steps_pure hR _

theorem steps_tx_send_payload {R : nrf24l01plus H → nrf24l01plus H → Prop} {hw : Hardware H}
    (hR : Respected hw R) : Steps R (tx_send_payload hw) :=
  steps_bind hR (hR.ce_write true) (fun _ =>
    steps_bind hR (hR.wait_us 10) (fun _ => hR.ce_write false))

theorem steps_rx_set_payload_width_loop {R : nrf24l01plus H → nrf24l01plus H → Prop}
    {hw : Hardware H} (hR : Respected hw R) (width fuel : Nat) :
    ∀ i, Steps R (rx_set_payload_width_loop hw width fuel i) := by
  induction fuel with
  | zero => exact fun _ w => hR.refl w
  | succ fuel ih =>
    intro i
    unfold rx_set_payload_width_loop
    by_cases hi : i < 6
    · simp only [hi, if_true]
      exact steps_bind hR (steps_write_register hR _ _ false) (fun _ => ih _)
    · simp only [hi, if_false]
      exact steps_pure hR _

/-- Every member function other than `mode` respects a respected relation;
`mode` does so when storing the new mode does. -/
theorem respected_run_op {R : nrf24l01plus H → nrf24l01plus H → Prop} {hw : Hardware H}
    (hR : Respected hw R) (op : Op) (w : nrf24l01plus H)
    (hmode : ∀ m, op = Op.mode m → w.currentMode ≠ m → R w { w with currentMode := m }) :
    R w (run_op hw op w) := by
  cases op with
  | send_command c o n i l => exact hR.send_command c o n i l w
  | read_register a i l => exact steps_read_register hR a i l w
  | write_register a d l => exact steps_write_register hR a d l w
  | write_register_value a d => exact steps_write_register hR a [d] false w
  | no_operation =>
    exact steps_bind hR (fun w => hR.send_command _ _ _ _ _ w) (fun _ => steps_pure hR _) w
  | auto_retransmit d c => exact steps_write_register hR _ _ false w
  | channel c => exact steps_write_register hR _ _ false w
  | tx_set_address a => exact steps_write_register hR _ _ true w
  | tx_get_address =>
    exact steps_bind hR (steps_read_register hR _ true false) (fun _ => steps_pure hR _) w
  | get_mode => exact hR.refl w
  | mode m =>
    by_cases hne : w.currentMode = m
    · subst hne
      have h : mode hw w.currentMode w = (some (), w) := by
        simp [mode, bind, Drv.bind_run, read_currentMode, pure, Drv.pure_run]
      simp only [run_op, h]
      exact hR.refl w
    · simp only [run_op, mode_change hw m w hne]
      exact hR.trans _ _ _ (hmode m rfl hne)
        (steps_bind hR (steps_leave_active hR _) (fun _ => steps_enter_mode hR m) _)
  | power v =>
    exact steps_bind hR (steps_read_register hR _ true false)
      (fun _ => steps_write_register hR _ _ false) w
  | fifo_status =>
    exact steps_bind hR (steps_read_register hR _ true false) (fun _ => steps_pure hR _) w
  | rx_payload_width =>
    exact steps_bind hR (fun w => hR.send_command _ _ _ _ _ w) (fun _ => steps_pure hR _) w
  | rx_read_payload d n => exact hR.send_command _ _ _ _ _ w
  | rx_flush =>
    exact steps_bind hR (fun w => hR.send_command _ _ _ _ _ w) (fun _ => steps_pure hR _) w
  | tx_send_payload => exact steps_tx_send_payload hR w
  | tx_write_payload d n a =>
    cases a
    · exact steps_bind hR (fun w => hR.send_command _ _ _ _ _ w)
        (fun _ => steps_tx_send_payload hR) w
    · exact steps_bind hR (fun w => hR.send_command _ _ _ _ _ w)
        (fun _ => steps_tx_send_payload hR) w
  | tx_flush =>
    exact steps_bind hR (fun w => hR.send_command _ _ _ _ _ w) (fun _ => steps_pure hR _) w
  | rx_auto_acknowledgement p v =>
    exact steps_bind hR (steps_read_register hR _ true false)
      (fun _ => steps_write_register hR _ _ false) w
  | rx_auto_acknowledgement_all v => exact steps_write_register hR _ _ false w
  | rx_enabled p v =>
    exact steps_bind hR (steps_read_register hR _ true false)
      (fun _ => steps_write_register hR _ _ false) w
  | rx_enabled_all v => exact steps_write_register hR _ _ false w
  | rx_get_address p =>
    by_cases hp : p > 1
    · simp only [run_op, rx_get_address, hp, if_true]
      exact steps_bind hR (steps_read_register hR _ true false) (fun _ =>
        steps_bind hR (steps_read_register hR _ true false) (fun _ => steps_pure hR _)) w
    · simp only [run_op, rx_get_address, hp, if_false]
      exact steps_bind hR (steps_read_register hR _ true true) (fun _ => steps_pure hR _) w
  | rx_set_address p a =>
    by_cases hp : p > 1
    · simp only [run_op, rx_set_address, hp, if_true]
      exact steps_write_register hR _ _ true w
    · simp only [run_op, rx_set_address, hp, if_false]
      exact steps_write_register hR _ _ true w
  | rx_set_payload_width p n => exact steps_write_register hR _ _ false w
  | rx_set_payload_width_all n => exact steps_rx_set_payload_width_loop hR n 7 0 w
  | rx_get_payload_width p =>
    exact steps_bind hR (steps_read_register hR _ true false) (fun _ => steps_pure hR _) w
  | rx_set_dynamic_payload_length p v =>
    exact steps_bind hR (steps_read_register hR _ true false)
      (fun _ => steps_write_register hR _ _ false) w
  | rx_set_dynamic_payload_length_all v => exact steps_write_register hR _ _ false w

/-! ## Chip-select discipline -/

theorem framing_append (a b : List Event) :
    ∀ held, framing held a = true → framing held (a ++ b) = framing false b := by
  induction a with
  | nil =>
    intro held h
    cases held
    · rfl
    · simp [framing] at h
  | cons e rest ih =>
    intro held h
    cases e <;> cases held <;> simp only [framing, List.cons_append, Bool.and_eq_true,
      Bool.not_true, Bool.not_false, Bool.false_and, Bool.true_and, Bool.false_eq_true,
      false_and] at h ⊢ <;> exact ih _ h

theorem framing_window (xs : List Event) (hxs : ∀ e ∈ xs, e.is_exchange = true) :
    framing true (xs ++ [Event.csn_release]) = true := by
  induction xs with
  | nil => rfl
  | cons e rest ih =>
    have he := hxs e (List.mem_cons_self _ _)
    have hrest := ih (fun e' h' => hxs e' (List.mem_cons_of_mem _ h'))
    cases e <;> simp [Event.is_exchange] at he <;> simpa [framing] using hrest

/-- Whatever the outcome of `send_command`, the events it adds are one
acquire, at most two byte exchanges and one release. -/
theorem send_command_window (hw : Hardware H) (c n : Nat) (o : Option (List Nat)) (i l : Bool)
    (w : nrf24l01plus H) :
    ∃ xs, (send_command hw c o n i l w).2.trace =
        w.trace ++ (Event.csn_acquire :: (xs ++ [Event.csn_release])) ∧
      (∀ e ∈ xs, e.is_exchange = true) ∧ xs.length ≤ 2 := by
  unfold send_command transaction
  simp only [bind, Drv.bind_run, transaction_write_read, emit, Option.map_some',
    List.take_succ_cons, List.take_zero]
  cases h1 : hw.write_read 1 (some [c]) (hw.csn_acquire w.hw) with
  | none => exact ⟨[], by simp, by simp, by simp⟩
  | some p =>
    obtain ⟨f, h1s⟩ := p
    simp only [set_last_status, received_one, if_true, List.headD_cons]
    by_cases hn : n = 0
    · refine ⟨[Event.write_read 1 (some [c]) (some [to_uint8 (f 0)])], ?_, ?_, by simp⟩
      · simp [hn, pure, Drv.pure_run]
      · intro e he
        simp only [List.mem_singleton] at he
        subst he
        rfl
    · simp only [hn, if_false]
      cases l with
      | true =>
        simp only [if_true, transaction_write_read_reverse, emit]
        cases h2 : hw.write_read_reverse n (Option.map (List.take n) o) h1s with
        | none =>
          refine ⟨[Event.write_read 1 (some [c]) (some [to_uint8 (f 0)])], by simp, ?_, by simp⟩
          intro e he
          simp only [List.mem_singleton] at he
          subst he
          rfl
        | some q =>
          refine ⟨[Event.write_read 1 (some [c]) (some [to_uint8 (f 0)]),
            Event.write_read_reverse n (Option.map (List.take n) o)
              (if i then some (received n q.1) else none)], by simp, ?_, by simp⟩
          intro e he
          simp only [List.mem_cons, List.mem_singleton, List.not_mem_nil, or_false] at he
          rcases he with rfl | rfl <;> rfl
      | false =>
        simp only [Bool.false_eq_true, if_false, transaction_write_read, emit]
        cases h2 : hw.write_read n (Option.map (List.take n) o) h1s with
        | none =>
          refine ⟨[Event.write_read 1 (some [c]) (some [to_uint8 (f 0)])], by simp, ?_, by simp⟩
          intro e he
          simp only [List.mem_singleton] at he
          subst he
          rfl
        | some q =>
          refine ⟨[Event.write_read 1 (some [c]) (some [to_uint8 (f 0)]),
            Event.write_read n (Option.map (List.take n) o)
              (if i then some (received n q.1) else none)], by simp, ?_, by simp⟩
          intro e he
          simp only [List.mem_cons, List.mem_singleton, List.not_mem_nil, or_false] at he
          rcases he with rfl | rfl <;> rfl

theorem respected_framing (hw : Hardware H) : Respected hw (Framed (H := H)) where
  refl w := ⟨[], by simp, rfl⟩
  trans w1 w2 w3 h12 h23 := by
    obtain ⟨a, ha, fa⟩ := h12
    obtain ⟨b, hb, fb⟩ := h23
    exact ⟨a ++ b, by rw [hb, ha, List.append_assoc], by rw [framing_append a b false fa, fb]⟩
  send_command c o n i l w := by
    obtain ⟨xs, hx, hex, _⟩ := send_command_window hw c n o i l w
    exact ⟨_, hx, by simpa [framing] using framing_window xs hex⟩
  ce_write v w := by
    unfold ce_write
    cases hw.ce_write v w.hw with
    | none => exact ⟨[], by simp, rfl⟩
    | some h => exact ⟨[Event.ce_write v], rfl, rfl⟩
  ce_flush w := by
    unfold ce_flush
    cases hw.ce_flush w.hw with
    | none => exact ⟨[], by simp, rfl⟩
    | some h => exact ⟨[Event.ce_flush], rfl, rfl⟩
  wait_us us w := ⟨[Event.wait_us us], rfl, rfl⟩

/-! ## Register-level accessors -/

theorem write_value_trace {hw : Hardware H} {address value : Nat} {w : nrf24l01plus H}
    (ha : address < 256) (hb : register_bytes address = 1)
    (h : (write_register_value hw address value w).1 = some ()) :
    ∃ status, (write_register_value hw address value w).2.trace =
      w.trace ++ [Event.csn_acquire,
        Event.write_read 1 (some [0x20 ||| address]) (some [status]),
        Event.write_read 1 (some [value]) none, Event.csn_release] := by
  obtain ⟨status, _, _, ht⟩ := write_byte_trace ha hb (run_eq h)
  exact ⟨status, by simpa [write_events] using ht⟩

theorem completes_write_register_value {hw : Hardware H} (hrel : Reliable hw) (a d : Nat) :
    Completes (write_register_value hw a d) := completes_write_register hrel a [d] false

set_option maxRecDepth 100000 in
theorem retransmit_byte : ∀ d < 16, ∀ k < 16, to_uint8 (int_shl d 4 ||| k) = 16 * d + k := by
  decide

theorem payload_width_byte (width : Nat) : to_uint8 (width &&& 0x3F) = width &&& 0x3F :=
  to_uint8_of_lt (lt_of_le_of_lt Nat.and_le_right (by decide))

theorem payload_width_register {p : Nat} (hp : p ≤ 5) :
    to_uint8 (NRF_REGISTER.RX_PW_P0 + p) = 0x11 + p ∧ 0x11 + p < 256 ∧
      register_bytes (0x11 + p) = 1 := by
  interval_cases p <;> decide

theorem address_register {p : Nat} (hp2 : 2 ≤ p) (hp5 : p ≤ 5) :
    to_uint8 (NRF_REGISTER.RX_ADDR_P0 + p) = 0x0A + p ∧ 0x0A + p < 256 ∧
      register_bytes (0x0A + p) = 1 ∧ 0x20 ||| (0x0A + p) ≠ 0x20 ||| 0x0B := by
  interval_cases p <;> decide

/-- What the code returns in the scenario of C11 for every pipe 2..5 on a
reset mock chip: bytes 5, 4, 3, 2 of the address given to pipe 1, then the
fifth byte given to the pipe itself. -/
theorem rx_get_address_after_set (A X : address) (p : Nat) (hp2 : 2 ≤ p) (hp5 : p ≤ 5) :
    (rx_get_address mock p
        (rx_set_address mock p X (rx_set_address mock 1 A fresh).2).2).1.map address.to_list =
      some [A.address_bytes 4 % 256, A.address_bytes 3 % 256, A.address_bytes 2 % 256,
        A.address_bytes 1 % 256, X.address_bytes 4 % 256] := by
  interval_cases p <;> rfl

/-- What the code does in `channel` for every argument: a completed call is
one write command to RF_CH (0x05) carrying `channel & 0xEF`. -/
theorem channel_trace (hw : Hardware H) (w : nrf24l01plus H) (c : Nat)
    (h : (channel hw c w).1 = some ()) :
    ∃ status, (channel hw c w).2.trace =
      w.trace ++ [Event.csn_acquire,
        Event.write_read 1 (some [0x25]) (some [status]),
        Event.write_read 1 (some [c &&& 0xEF]) none, Event.csn_release] := by
  have hc : to_uint8 (c &&& 0xEF) = c &&& 0xEF :=
    to_uint8_of_lt (lt_of_le_of_lt Nat.and_le_right (by decide))
  unfold channel at h ⊢
  rw [hc] at h ⊢
  exact write_value_trace (by decide : NRF_REGISTER.RF_CH < 256) (by decide) h

/-- C11: the claim fails on the code.  After `rx_set_address(1, A)` with
`A = {1, 2, 3, 4, 5}` and `rx_set_address(3, X)` with fifth byte 0xC4 on the
mock register file, `rx_get_address(3)` returns `{5, 4, 3, 2, 0xC4}`: pipe 1 is
written byte-reversed but read back in buffer order, so the prefix comes out
reversed.  With the five equal bytes 0xC2 of the documented instance the
result is `{0xC2, 0xC2, 0xC2, 0xC2, 0xC4}`. -/
theorem rx_get_address_reverses_prefix :
    ((rx_get_address mock 3
        (rx_set_address mock 3 (address.of_bytes 9 9 9 9 0xC4)
          (rx_set_address mock 1 (address.of_bytes 1 2 3 4 5) fresh).2).2).1.map
      address.to_list = some [5, 4, 3, 2, 0xC4]) ∧
    ((rx_get_address mock 3
        (rx_set_address mock 3 (address.of_bytes 9 9 9 9 0xC4)
          (rx_set_address mock 1 (address.of_bytes 0xC2 0xC2 0xC2 0xC2 0xC2) fresh).2).2).1.map
      address.to_list = some [0xC2, 0xC2, 0xC2, 0xC2, 0xC4]) :=
  ⟨rfl, rfl⟩

/-- C12: the claim fails on the code.  `channel(0x10)` writes 0x00 to RF_CH:
the mask in the code is 0xEF, which drops bit 4 of the channel and keeps bit 7,
where the claim has the seven-bit mask 0x7F, under which 0x10 stays 0x10.
`channel(0x90)` writes 0x80. -/
theorem channel_masks_with_0xEF :
    (channel mock 0x10 fresh).2.trace =
      [Event.csn_acquire, Event.write_read 1 (some [0x25]) (some [0x0E]),
        Event.write_read 1 (some [0x00]) none, Event.csn_release] ∧
    0x10 &&& 0x7F = 0x10 ∧
    (channel mock 0x90 fresh).2.trace =
      [Event.csn_acquire, Event.write_read 1 (some [0x25]) (some [0x0E]),
        Event.write_read 1 (some [0x80]) none, Event.csn_release] ∧
    0x90 &&& 0x7F = 0x10 :=
  ⟨rfl, rfl, rfl, rfl⟩

/-- C13: for a pipe index `p` in 0..5 and any width `w`,
`rx_set_payload_width(p, w)` has no rejecting path: on hardware that never
fails it completes, and a completed call is exactly one write command to
register `0x11 + p` carrying the single byte `w & 0x3F`, with no read. -/
theorem rx_set_payload_width_masks (hw : Hardware H) (w : nrf24l01plus H) (p width : Nat)
    (hp : p ≤ 5) :
    (Reliable hw → (rx_set_payload_width hw p width w).1 = some ()) ∧
    ((rx_set_payload_width hw p width w).1 = some () →
      ∃ status, (rx_set_payload_width hw p width w).2.trace =
        w.trace ++ [Event.csn_acquire,
          Event.write_read 1 (some [0x20 ||| (0x11 + p)]) (some [status]),
          Event.write_read 1 (some [width &&& 0x3F]) none, Event.csn_release]) := by
  obtain ⟨ha, hlt, hb⟩ := payload_width_register hp
  refine ⟨fun hrel => completes_unit (completes_write_register_value hrel _ _) w, fun h => ?_⟩
  unfold rx_set_payload_width at h ⊢
  rw [ha, payload_width_byte] at h ⊢
  exact write_value_trace hlt hb h

/-- Witness for C13: width 0xFF on pipe 5 of the mock chip is written as
0x3F. -/
theorem rx_set_payload_width_masks_witness :
    (rx_set_payload_width mock 5 0xFF fresh).1 = some () ∧
    ∃ status, (rx_set_payload_width mock 5 0xFF fresh).2.trace =
      fresh.trace ++ [Event.csn_acquire,
        Event.write_read 1 (some [0x20 ||| (0x11 + 5)]) (some [status]),
        Event.write_read 1 (some [0xFF &&& 0x3F]) none, Event.csn_release] :=
  ⟨rfl, (rx_set_payload_width_masks mock fresh 5 0xFF (by decide)).2 rfl⟩

/-- C14: for `retry_delay = d` and `retry_count = k` both in 0..15, a
completed `auto_retransmit(d, k)` is exactly one write command to SETUP_RETR
(0x04) carrying the single byte `16 * d + k`, whose high nibble is `d` and
whose low nibble is `k`; for `d = k = 0` the byte is 0x00.  On hardware that
never fails the call completes. -/
theorem auto_retransmit_packs_nibbles (hw : Hardware H) (w : nrf24l01plus H) (d k : Nat)
    (hd : d ≤ 15) (hk : k ≤ 15) :
    (Reliable hw → (auto_retransmit hw d k w).1 = some ()) ∧
    ((auto_retransmit hw d k w).1 = some () →
      ∃ status, (auto_retransmit hw d k w).2.trace =
        w.trace ++ [Event.csn_acquire,
          Event.write_read 1 (some [0x24]) (some [status]),
          Event.write_read 1 (some [16 * d + k]) none, Event.csn_release]) ∧
    (16 * d + k) / 16 = d ∧ (16 * d + k) % 16 = k ∧ 16 * d + k < 256 ∧
    (d = 0 → k = 0 → 16 * d + k = 0x00) := by
  refine ⟨fun hrel => completes_unit (completes_write_register_value hrel _ _) w, fun h => ?_,
    by omega, by omega, by omega, by omega⟩
  unfold auto_retransmit at h ⊢
  rw [retransmit_byte d (by omega) k (by omega)] at h ⊢
  exact write_value_trace (by decide : NRF_REGISTER.SETUP_RETR < 256) (by decide) h

/-- Witness for C14: delay 15 and count 3 on the mock chip give the byte
0xF3. -/
theorem auto_retransmit_packs_nibbles_witness :
    (auto_retransmit mock 15 3 fresh).1 = some () ∧
    (∃ status, (auto_retransmit mock 15 3 fresh).2.trace =
      fresh.trace ++ [Event.csn_acquire,
        Event.write_read 1 (some [0x24]) (some [status]),
        Event.write_read 1 (some [16 * 15 + 3]) none, Event.csn_release]) ∧
    (16 * 15 + 3) / 16 = 15 ∧ (16 * 15 + 3) % 16 = 3 :=
  ⟨rfl, (auto_retransmit_packs_nibbles mock fresh 15 3 (by decide) (by decide)).2.1 rfl,
    (auto_retransmit_packs_nibbles mock fresh 15 3 (by decide) (by decide)).2.2.1,
    (auto_retransmit_packs_nibbles mock fresh 15 3 (by decide) (by decide)).2.2.2.1⟩

/-- C15: for every flag `v`, each completed all-pipes accessor,
`rx_auto_acknowledgement(v)` on EN_AA (0x01), `rx_enabled(v)` on EN_RXADDR
(0x02) and `rx_set_dynamic_payload_length(v)` on DYNPD (0x1C), is exactly one
write command to its register carrying 0x3F when `v` is set and 0x00
otherwise; no register is read.  On hardware that never fails all three
complete. -/
theorem all_pipes_accessors_write_mask (hw : Hardware H) (w : nrf24l01plus H) (v : Bool) :
    (Reliable hw →
      (rx_auto_acknowledgement_all hw v w).1 = some () ∧
      (rx_enabled_all hw v w).1 = some () ∧
      (rx_set_dynamic_payload_length_all hw v w).1 = some ()) ∧
    ((rx_auto_acknowledgement_all hw v w).1 = some () →
      ∃ status, (rx_auto_acknowledgement_all hw v w).2.trace =
        w.trace ++ [Event.csn_acquire,
          Event.write_read 1 (some [0x21]) (some [status]),
          Event.write_read 1 (some [if v then 0x3F else 0x00]) none, Event.csn_release]) ∧
    ((rx_enabled_all hw v w).1 = some () →
      ∃ status, (rx_enabled_all hw v w).2.trace =
        w.trace ++ [Event.csn_acquire,
          Event.write_read 1 (some [0x22]) (some [status]),
          Event.write_read 1 (some [if v then 0x3F else 0x00]) none, Event.csn_release]) ∧
    ((rx_set_dynamic_payload_length_all hw v w).1 = some () →
      ∃ status, (rx_set_dynamic_payload_length_all hw v w).2.trace =
        w.trace ++ [Event.csn_acquire,
          Event.write_read 1 (some [0x3C]) (some [status]),
          Event.write_read 1 (some [if v then 0x3F else 0x00]) none, Event.csn_release]) := by
  have hv : to_uint8 (if v then 0x3F else 0x00) = if v then 0x3F else 0x00 := by
    cases v <;> rfl
  refine ⟨fun hrel => ⟨completes_unit (completes_write_register_value hrel _ _) w,
    completes_unit (completes_write_register_value hrel _ _) w,
    completes_unit (completes_write_register_value hrel _ _) w⟩, fun h => ?_, fun h => ?_,
    fun h => ?_⟩
  · unfold rx_auto_acknowledgement_all at h ⊢
    rw [hv] at h ⊢
    exact write_value_trace (by decide : NRF_REGISTER.EN_AA < 256) (by decide) h
  · unfold rx_enabled_all at h ⊢
    rw [hv] at h ⊢
    exact write_value_trace (by decide : NRF_REGISTER.EN_RXADDR < 256) (by decide) h
  · unfold rx_set_dynamic_payload_length_all at h ⊢
    rw [hv] at h ⊢
    exact write_value_trace (by decide : NRF_REGISTER.DYNPD < 256) (by decide) h

/-- Witness for C15: all pipes switched on in all three registers of the mock
chip. -/
theorem all_pipes_accessors_write_mask_witness :
    ((rx_auto_acknowledgement_all mock true fresh).1 = some () ∧
      ∃ status, (rx_auto_acknowledgement_all mock true fresh).2.trace =
        fresh.trace ++ [Event.csn_acquire,
          Event.write_read 1 (some [0x21]) (some [status]),
          Event.write_read 1 (some [if true then 0x3F else 0x00]) none, Event.csn_release]) ∧
    ((rx_enabled_all mock true fresh).1 = some () ∧
      ∃ status, (rx_enabled_all mock true fresh).2.trace =
        fresh.trace ++ [Event.csn_acquire,
          Event.write_read 1 (some [0x22]) (some [status]),
          Event.write_read 1 (some [if true then 0x3F else 0x00]) none, Event.csn_release]) ∧
    ((rx_set_dynamic_payload_length_all mock true fresh).1 = some () ∧
      ∃ status, (rx_set_dynamic_payload_length_all mock true fresh).2.trace =
        fresh.trace ++ [Event.csn_acquire,
          Event.write_read 1 (some [0x3C]) (some [status]),
          Event.write_read 1 (some [if true then 0x3F else 0x00]) none, Event.csn_release]) :=
  ⟨⟨rfl, (all_pipes_accessors_write_mask mock fresh true).2.1 rfl⟩,
   ⟨rfl, (all_pipes_accessors_write_mask mock fresh true).2.2.1 rfl⟩,
   ⟨rfl, (all_pipes_accessors_write_mask mock fresh true).2.2.2 rfl⟩⟩

theorem mock_keeps_pipe1 (m : nrf24l01plus MockChip) (op value : Nat) (hop1 : 0x2C ≤ op)
    (hop2 : op ≤ 0x2F) :
    (write_register mock (op - 0x20) [value] true m).2.hw.registers.getD 0x0B [] =
      m.hw.registers.getD 0x0B [] := by
  have hne : op - 0x20 ≠ 0x0B := by omega
  interval_cases op <;>
    simp [write_register, send_command, transaction, bind, Drv.bind_run, pure, Drv.pure_run,
      transaction_write_read, transaction_write_read_reverse, set_last_status, emit, mock,
      MockChip.exchange, register_bytes, to_uint8, NRF_INSTRUCTION.W_REGISTER,
      NRF_REGISTER.RX_ADDR_P0, NRF_REGISTER.RX_ADDR_P1, NRF_REGISTER.TX_ADDR, List.getD,
      List.getElem?_set]

/-- C16: for a pipe `p` in 2..5 and an address `A`, a completed
`rx_set_address(p, A)` is exactly one write command, to register `0x0A + p`,
whose payload is the single byte `A.address_bytes[4]`; the command word is not
the one that writes RX_ADDR_P1, and on the mock register file the content of
RX_ADDR_P1 is the same before and after.  On hardware that never fails the
call completes. -/
theorem rx_set_address_writes_last_byte (hw : Hardware H) (w : nrf24l01plus H) (p : Nat)
    (A : address) (hp2 : 2 ≤ p) (hp5 : p ≤ 5) :
    (Reliable hw → (rx_set_address hw p A w).1 = some ()) ∧
    ((rx_set_address hw p A w).1 = some () →
      ∃ status, (rx_set_address hw p A w).2.trace =
        w.trace ++ [Event.csn_acquire,
          Event.write_read 1 (some [0x20 ||| (0x0A + p)]) (some [status]),
          Event.write_read_reverse 1 (some [A.address_bytes 4]) none, Event.csn_release]) ∧
    0x20 ||| (0x0A + p) ≠ 0x20 ||| 0x0B ∧
    (∀ m : nrf24l01plus MockChip,
      (rx_set_address mock p A m).2.hw.registers.getD 0x0B [] =
        m.hw.registers.getD 0x0B []) := by
  obtain ⟨ha, hlt, hb, hne⟩ := address_register hp2 hp5
  have hp : p > 1 := by omega
  have hdef : ∀ {K : Type} (k : Hardware K), rx_set_address k p A =
      write_register k (0x0A + p) [A.address_bytes 4] true := by
    intro K k
    simp only [rx_set_address, hp, if_true, ha, address.to_list, List.drop_succ_cons,
      List.drop_zero]
  refine ⟨fun hrel => completes_unit (by rw [hdef]; exact completes_write_register hrel _ _ _) w,
    fun h => ?_, hne, fun m => ?_⟩
  · rw [hdef] at h ⊢
    obtain ⟨status, _, _, _, ht⟩ := write_register_trace (run_eq h)
    refine ⟨status, ?_⟩
    rw [ht, hb]
    have h8 : to_uint8 (NRF_INSTRUCTION.W_REGISTER ||| (0x0A + p)) = 0x20 ||| (0x0A + p) :=
      to_uint8_of_lt (@Nat.or_lt_two_pow 0x20 (0x0A + p) 8 (by decide) hlt)
    simp [payload_event, h8]
  · rw [hdef]
    have := mock_keeps_pipe1 m (0x20 + (0x0A + p)) (A.address_bytes 4) (by omega) (by omega)
    simpa using this

/-- Witness for C16: pipe 3 of the mock chip set to an address ending in
0xC4. -/
theorem rx_set_address_writes_last_byte_witness :
    (rx_set_address mock 3 (address.of_bytes 9 9 9 9 0xC4) fresh).1 = some () ∧
    ∃ status, (rx_set_address mock 3 (address.of_bytes 9 9 9 9 0xC4) fresh).2.trace =
      fresh.trace ++ [Event.csn_acquire,
        Event.write_read 1 (some [0x20 ||| (0x0A + 3)]) (some [status]),
        Event.write_read_reverse 1 (some [(address.of_bytes 9 9 9 9 0xC4).address_bytes 4]) none,
        Event.csn_release] :=
  ⟨rfl, (rx_set_address_writes_last_byte mock fresh 3 (address.of_bytes 9 9 9 9 0xC4)
    (by decide) (by decide)).2.1 rfl⟩

/-! ## Sequences of calls -/

theorem framed_run_ops (hw : Hardware H) (ops : List Op) :
    ∀ w : nrf24l01plus H, Framed w (run_ops hw ops w) := by
  induction ops with
  | nil => exact fun w => (respected_framing hw).refl w
  | cons op rest ih =>
    intro w
    have h1 : Framed w (run_op hw op w) :=
      respected_run_op (respected_framing hw) op w (fun m _ _ => ⟨[], by simp, rfl⟩)
    exact (respected_framing hw).trans _ _ _ h1 (ih _)

/-- C17: whatever its arguments and its outcome, `send_command` adds to the
trace one acquire of chip-select, then only byte exchanges, then one release;
a completed command has the command word exchange first and one exchange in
all when `n = 0`, two otherwise.  Hence the events added by any sequence of
calls of member functions keep the chip-select discipline: no acquire while
chip-select is held, no exchange and no release while it is free, and
chip-select free at the end. -/
theorem send_command_holds_chip_select (hw : Hardware H) (w : nrf24l01plus H) :
    (∀ c o n i l, ∃ xs,
      (send_command hw c o n i l w).2.trace =
        w.trace ++ ([Event.csn_acquire] ++ xs ++ [Event.csn_release]) ∧
      (∀ e ∈ xs, e.is_exchange = true) ∧
      ((send_command hw c o n i l w).1 ≠ none →
        xs.length = (if n = 0 then 1 else 2) ∧
        ∃ status, xs.head? = some (Event.write_read 1 (some [c]) (some [status])))) ∧
    (∀ ops, ∃ evs, (run_ops hw ops w).trace = w.trace ++ evs ∧ framing false evs = true) := by
  refine ⟨fun c o n i l => ?_, fun ops => framed_run_ops hw ops w⟩
  obtain ⟨xs, hx, hex, _⟩ := send_command_window hw c n o i l w
  refine ⟨xs, by simpa using hx, hex, fun hne => ?_⟩
  obtain ⟨r, hr⟩ := Option.ne_none_iff_exists'.mp hne
  obtain ⟨status, reply, _, _, _, _, _, _, ht⟩ := send_command_trace (run_eq hr)
  rw [ht] at hx
  have hxs := List.append_cancel_left hx
  by_cases hn : n = 0
  · simp only [hn, if_true, List.append_nil, List.cons_append, List.nil_append,
      List.cons.injEq, true_and] at hxs
    have : xs = [Event.write_read 1 (some [c]) (some [status])] := by
      have h2 : [Event.write_read 1 (some [c]) (some [status])] ++ [Event.csn_release] =
          xs ++ [Event.csn_release] := by simpa using hxs
      exact (List.append_cancel_right h2).symm
    subst this
    exact ⟨by simp [hn], status, rfl⟩
  · simp only [hn, if_false, List.cons_append, List.nil_append, List.cons.injEq,
      true_and] at hxs
    have : xs = [Event.write_read 1 (some [c]) (some [status]),
        payload_event l n (o.map (List.take n)) (if i then some reply else none)] := by
      have h2 : [Event.write_read 1 (some [c]) (some [status]),
          payload_event l n (o.map (List.take n)) (if i then some reply else none)] ++
            [Event.csn_release] = xs ++ [Event.csn_release] := by simpa using hxs
      exact (List.append_cancel_right h2).symm
    subst this
    exact ⟨by simp [hn], status, rfl⟩

/-- Witness for C17: a NOP, a mode change and a payload write on the mock
chip, and the same sequence on the bus whose exchanges fail. -/
theorem send_command_holds_chip_select_witness :
    framing false
      (run_ops mock [Op.no_operation, Op.mode 2, Op.tx_write_payload [1, 2, 3] 3 false]
        fresh).trace = true ∧
    (run_ops broken_bus [Op.no_operation, Op.mode 2, Op.tx_write_payload [1, 2, 3] 3 false]
        fresh).trace =
      [Event.csn_acquire, Event.csn_release, Event.csn_acquire, Event.csn_release,
        Event.csn_acquire, Event.csn_release] ∧
    ∃ evs, (run_ops mock [Op.no_operation, Op.mode 2, Op.tx_write_payload [1, 2, 3] 3 false]
        fresh).trace = fresh.trace ++ evs ∧ framing false evs = true :=
  ⟨rfl, rfl, (send_command_holds_chip_select mock fresh).2
    [Op.no_operation, Op.mode 2, Op.tx_write_payload [1, 2, 3] 3 false]⟩

theorem mode_stores_argument (hw : Hardware H) (w : nrf24l01plus H) (m : Nat) :
    (mode hw m w).2.currentMode = m := by
  by_cases hne : w.currentMode = m
  · subst hne
    have h : mode hw w.currentMode w = (some (), w) := by
      simp [mode, bind, Drv.bind_run, read_currentMode, pure, Drv.pure_run]
    rw [h]
  · rw [mode_change hw m w hne]
    exact keepsMode_bind (keepsMode_leave_active hw _) (fun _ => keepsMode_enter_mode hw m) _

theorem respected_valid_mode (hw : Hardware H) :
    Respected hw (fun w1 w2 : nrf24l01plus H => ValidMode w1 → ValidMode w2) where
  refl _ h := h
  trans _ _ _ h12 h23 h := h23 (h12 h)
  send_command c o n i l w h := by
    unfold ValidMode at h ⊢
    rwa [keepsMode_send_command hw c n o i l w]
  ce_write v w h := by
    unfold ValidMode at h ⊢
    rwa [keepsMode_ce_write hw v w]
  ce_flush w h := by
    unfold ValidMode at h ⊢
    rwa [keepsMode_ce_flush hw w]
  wait_us us w h := h

/-- C18, as stated, fails: `mode(7)` on a freshly constructed driver leaves
`get_mode()` at 7, which is none of NONE, PRIMARY_TRANSMIT and
PRIMARY_RECEIVE. -/
theorem mode_accepts_any_byte :
    get_mode (run_ops mock [Op.mode 7] (construct MockChip.reset)) = 7 ∧
    ¬ ValidMode (run_ops mock [Op.mode 7] (construct MockChip.reset)) := by
  refine ⟨rfl, ?_⟩
  intro h
  have h7 : (run_ops mock [Op.mode 7] (construct MockChip.reset)).currentMode = 7 := rfl
  unfold ValidMode at h
  rw [h7] at h
  revert h
  decide

/-- C18, amended: `mode(m)` stores its argument whatever it is, so after it
`get_mode()` returns `m`; in every driver state reached from construction by a
sequence of calls of member functions in which every `mode` argument is 0, 1
or 2, `get_mode()` is one of NONE, PRIMARY_TRANSMIT and PRIMARY_RECEIVE. -/
theorem valid_mode_invariant (hw : Hardware H) (h : H) (ops : List Op)
    (hops : ∀ m, Op.mode m ∈ ops → m ≤ 2) :
    (get_mode (run_ops hw ops (construct h)) = MODE_NONE ∨
      get_mode (run_ops hw ops (construct h)) = MODE_PTX ∨
      get_mode (run_ops hw ops (construct h)) = MODE_PRX) ∧
    (∀ (w : nrf24l01plus H) (m : Nat), get_mode (run_op hw (Op.mode m) w) = m) := by
  refine ⟨?_, fun w m => mode_stores_argument hw w m⟩
  have key : ∀ (ops : List Op), (∀ m, Op.mode m ∈ ops → m ≤ 2) →
      ∀ w : nrf24l01plus H, ValidMode w → ValidMode (run_ops hw ops w) := by
    intro ops
    induction ops with
    | nil => exact fun _ w hw0 => hw0
    | cons op rest ih =>
      intro hall w hw0
      refine ih (fun m hm => hall m (List.mem_cons_of_mem _ hm)) _ ?_
      refine respected_run_op (respected_valid_mode hw) op w ?_ hw0
      intro m hm _ _
      have hm2 : m ≤ 2 := hall m (by rw [hm]; exact List.mem_cons_self _ _)
      unfold ValidMode MODE_NONE MODE_PTX MODE_PRX
      show m = 0 ∨ m = 1 ∨ m = 2
      omega
  exact key ops hops (construct h) (Or.inl rfl)

/-- Witness for C18, amended: transmit, receive and a channel change in
between on the mock chip. -/
theorem valid_mode_invariant_witness :
    (get_mode (run_ops mock [Op.mode 1, Op.channel 5, Op.mode 2, Op.tx_flush]
        (construct MockChip.reset)) = MODE_NONE ∨
      get_mode (run_ops mock [Op.mode 1, Op.channel 5, Op.mode 2, Op.tx_flush]
        (construct MockChip.reset)) = MODE_PTX ∨
      get_mode (run_ops mock [Op.mode 1, Op.channel 5, Op.mode 2, Op.tx_flush]
        (construct MockChip.reset)) = MODE_PRX) ∧
    get_mode (run_ops mock [Op.mode 1, Op.channel 5, Op.mode 2, Op.tx_flush]
        (construct MockChip.reset)) = MODE_PRX :=
  ⟨(valid_mode_invariant mock MockChip.reset [Op.mode 1, Op.channel 5, Op.mode 2, Op.tx_flush]
    (by
      intro m hm
      simp only [List.mem_cons, Op.mode.injEq, List.mem_singleton, List.not_mem_nil,
        or_false, reduceCtorEq, false_or] at hm
      omega)).1, rfl⟩

/-! ## The address value type -/

theorem address.eq_iff (a b : address) :
    a.eq b = true ↔ ∀ i, a.address_bytes i = b.address_bytes i := by
  simp only [address.eq, address.eq_loop, ne_eq, ite_not, Bool.if_false_right,
    Bool.and_true, Bool.and_eq_true, decide_eq_true_eq, Bool.if_true_left, Bool.decide_eq_true,
    Bool.or_eq_true, Bool.not_eq_true', decide_eq_false_iff_not]
  constructor
  · intro h i
    fin_cases i
    · exact h.1
    · exact h.2.1
    · exact h.2.2.1
    · exact h.2.2.2.1
    · exact h.2.2.2.2
  · intro h
    exact ⟨h 0, h 1, h 2, h 3, h 4⟩

/-- C19: for every five bytes the address built by the five-byte constructor
and the address built from a buffer holding the five bytes both have
`address_bytes` equal to these bytes in the same order. -/
theorem address_constructors_keep_bytes (b1 b2 b3 b4 b5 : Nat) :
    (address.of_bytes b1 b2 b3 b4 b5).address_bytes = ![b1, b2, b3, b4, b5] ∧
    (address.of_buffer [b1, b2, b3, b4, b5]).address_bytes = ![b1, b2, b3, b4, b5] ∧
    (address.of_bytes b1 b2 b3 b4 b5).to_list = [b1, b2, b3, b4, b5] ∧
    (address.of_buffer [b1, b2, b3, b4, b5]).to_list = [b1, b2, b3, b4, b5] := by
  refine ⟨rfl, ?_, rfl, rfl⟩
  funext i
  fin_cases i <;> rfl

/-- C20: `operator==` between addresses holds exactly when all five bytes are
equal; it is reflexive, symmetric and transitive, and `operator!=` is its
negation. -/
theorem address_eq_is_bytewise (a b c : address) :
    (a.eq b = true ↔ ∀ i, a.address_bytes i = b.address_bytes i) ∧
    (a.eq b = true ↔ a = b) ∧
    a.eq a = true ∧
    (a.eq b = true → b.eq a = true) ∧
    (a.eq b = true → b.eq c = true → a.eq c = true) ∧
    a.ne b = !(a.eq b) := by
  have hext : ∀ x y : address, x.eq y = true ↔ x = y := by
    intro x y
    rw [address.eq_iff]
    constructor
    · intro h
      cases x
      cases y
      simp only [address.mk.injEq]
      exact funext h
    · intro h i
      rw [h]
  have hsymm : ∀ x y : address, x.eq y = y.eq x := by
    intro x y
    rw [Bool.eq_iff_iff, hext, hext]
    exact eq_comm
  refine ⟨address.eq_iff a b, hext a b, (hext a a).mpr rfl, ?_, ?_, ?_⟩
  · intro h
    rwa [hsymm]
  · intro h1 h2
    rw [hext] at h1 h2 ⊢
    exact h1.trans h2
  · rw [address.ne, hsymm]

/-- Witness for C20: two addresses that differ in the fifth byte only, and
one compared with a copy of itself. -/
theorem address_eq_is_bytewise_witness :
    (address.of_bytes 1 2 3 4 5).eq (address.of_bytes 1 2 3 4 6) = false ∧
    (address.of_bytes 1 2 3 4 5).ne (address.of_bytes 1 2 3 4 6) = true ∧
    (address.of_bytes 1 2 3 4 5).eq (address.of_buffer [1, 2, 3, 4, 5]) = true ∧
    (address.of_buffer [1, 2, 3, 4, 5]).eq (address.of_bytes 1 2 3 4 5) = true :=
  ⟨rfl, rfl, rfl,
    (address_eq_is_bytewise (address.of_bytes 1 2 3 4 5) (address.of_buffer [1, 2, 3, 4, 5])
      (address.of_bytes 1 2 3 4 5)).2.2.2.1 rfl⟩

/-! ## Address comparisons and the TX address -/

/-- C21: the comparison of an address with a single byte is true exactly when
the fifth byte of the address equals it, so two addresses with the same fifth
byte compare alike with every byte whatever their first four bytes are; the
`!=` form is its negation. -/
theorem address_eq_byte_is_fifth_byte (a b : address) (v : Nat) :
    (a.eq_byte v = true ↔ a.address_bytes 4 = v) ∧
    (a.address_bytes 4 = b.address_bytes 4 → a.eq_byte v = b.eq_byte v) ∧
    a.ne_byte v = !(a.eq_byte v) := by
  refine ⟨by simp [address.eq_byte], fun h => ?_, rfl⟩
  simp [address.eq_byte, h]

/-- Witness for C21: two addresses that share only the fifth byte. -/
theorem address_eq_byte_is_fifth_byte_witness :
    (address.of_bytes 1 2 3 4 0xC4).eq_byte 0xC4 = true ∧
    (address.of_bytes 1 2 3 4 0xC4).eq_byte 0xC5 = false ∧
    (address.of_bytes 1 2 3 4 0xC4).eq_byte 0xC4 =
      (address.of_bytes 9 8 7 6 0xC4).eq_byte 0xC4 :=
  ⟨rfl, rfl,
    (address_eq_byte_is_fifth_byte (address.of_bytes 1 2 3 4 0xC4)
      (address.of_bytes 9 8 7 6 0xC4) 0xC4).2.1 rfl⟩

/-- C22: `address(base, e)` has the first four bytes of `base` and fifth byte
`e`; hence it compares equal to the byte `e`, and `address(a, a[4])` compares
equal to `a`; the default-constructed address has five zero bytes. -/
theorem address_with_end_spec (base : address) (e : Nat) :
    (address.with_end base e).address_bytes 0 = base.address_bytes 0 ∧
    (address.with_end base e).address_bytes 1 = base.address_bytes 1 ∧
    (address.with_end base e).address_bytes 2 = base.address_bytes 2 ∧
    (address.with_end base e).address_bytes 3 = base.address_bytes 3 ∧
    (address.with_end base e).address_bytes 4 = e ∧
    (address.with_end base e).eq_byte e = true ∧
    (address.with_end base (base.address_bytes 4)).eq base = true ∧
    (∀ i, address.empty.address_bytes i = 0) ∧
    address.empty.to_list = [0, 0, 0, 0, 0] := by
  refine ⟨rfl, rfl, rfl, rfl, rfl, ?_, ?_, ?_, rfl⟩
  · simp [address.eq_byte, address.with_end]
  · rw [address.eq_iff]
    intro i
    fin_cases i <;> rfl
  · intro i
    fin_cases i <;> rfl

/-- C23: the claim fails on the code.  On the mock register file,
`tx_get_address()` after `tx_set_address({1, 2, 3, 4, 5})` returns
`{5, 4, 3, 2, 1}`, which `operator==` tells apart from the address set: the
address is written byte-reversed and read back in buffer order. -/
theorem tx_get_address_reverses :
    (tx_get_address mock (tx_set_address mock (address.of_bytes 1 2 3 4 5) fresh).2).1.map
      address.to_list = some [5, 4, 3, 2, 1] ∧
    (tx_get_address mock (tx_set_address mock (address.of_bytes 1 2 3 4 5) fresh).2).1.map
      (fun r => r.eq (address.of_bytes 1 2 3 4 5)) = some false :=
  ⟨rfl, rfl⟩

/-- What the code returns in the scenario of C23 for every address on a reset
mock chip: the five bytes in reverse order. -/
theorem tx_get_address_after_set (A : address) :
    (tx_get_address mock (tx_set_address mock A fresh).2).1.map address.to_list =
      some [A.address_bytes 4 % 256, A.address_bytes 3 % 256, A.address_bytes 2 % 256,
        A.address_bytes 1 % 256, A.address_bytes 0 % 256] :=
  rfl

/-! ## Mode NONE, power, and the payload width of all pipes -/

theorem ce_level_append (xs ys : List Event) :
    ∀ level, ce_level level (xs ++ ys) = ce_level (ce_level level xs) ys := by
  induction xs with
  | nil => exact fun _ => rfl
  | cons e rest ih =>
    intro level
    cases e <;> simp only [List.cons_append, ce_level] <;> exact ih _

theorem mock_mode_none_keeps_registers (m : nrf24l01plus MockChip) :
    (mode mock MODE_NONE m).2.hw.registers = m.hw.registers := by
  by_cases hne : m.currentMode = MODE_NONE
  · have h : mode mock m.currentMode m = (some (), m) := by
      simp [mode, bind, Drv.bind_run, read_currentMode, pure, Drv.pure_run]
    rw [← hne, h]
  · rw [mode_change mock MODE_NONE m hne]
    cases (decide (m.currentMode = MODE_PRX) || decide (m.currentMode = MODE_PTX)) <;>
      simp [leave_active, enter_mode, MODE_NONE, Drv.bind_run, bind, pure, Drv.pure_run,
        ce_write, ce_flush, wait_us, emit, mock]

/-- C24: whatever the current mode, a completed `mode(NONE)` adds no bus
event at all and leaves `last_status` as it was; its only events are
chip-enable written false, chip-enable flushed and a wait of 130
microseconds, added exactly when the mode left is PRIMARY_TRANSMIT or
PRIMARY_RECEIVE.  On the mock register file no register changes, CONFIG
included.  On hardware that never fails the call completes. -/
theorem mode_none_has_no_transaction (hw : Hardware H) (w : nrf24l01plus H) :
    (Reliable hw → (mode hw MODE_NONE w).1 = some ()) ∧
    ((mode hw MODE_NONE w).1 = some () →
      (mode hw MODE_NONE w).2.trace = w.trace ++
        (if w.currentMode = MODE_PTX ∨ w.currentMode = MODE_PRX then
          [Event.ce_write false, Event.ce_flush, Event.wait_us 130]
         else []) ∧
      (∀ e ∈ (if w.currentMode = MODE_PTX ∨ w.currentMode = MODE_PRX then
          [Event.ce_write false, Event.ce_flush, Event.wait_us 130]
         else []), e.is_exchange = false ∧ e ≠ Event.csn_acquire ∧ e ≠ Event.csn_release) ∧
      (mode hw MODE_NONE w).2.last_status = w.last_status ∧
      get_mode (mode hw MODE_NONE w).2 = MODE_NONE) ∧
    (∀ m : nrf24l01plus MockChip, (mode mock MODE_NONE m).2.hw.registers = m.hw.registers) := by
  refine ⟨fun hrel => completes_unit (completes_mode hrel _) w, fun h => ?_,
    mock_mode_none_keeps_registers⟩
  have hev : ∀ e ∈ (if w.currentMode = MODE_PTX ∨ w.currentMode = MODE_PRX then
      [Event.ce_write false, Event.ce_flush, Event.wait_us 130] else []),
      e.is_exchange = false ∧ e ≠ Event.csn_acquire ∧ e ≠ Event.csn_release := by
    intro e he
    split at he
    · simp only [List.mem_cons, List.mem_singleton, List.not_mem_nil, or_false] at he
      rcases he with rfl | rfl | rfl <;> exact ⟨rfl, by simp, by simp⟩
    · simp at he
  by_cases hne : w.currentMode = MODE_NONE
  · have hsame : mode hw MODE_NONE w = (some (), w) := by
      rw [← hne]
      simp [mode, bind, Drv.bind_run, read_currentMode, pure, Drv.pure_run]
    rw [hsame]
    have h0 : ¬ (w.currentMode = MODE_PTX ∨ w.currentMode = MODE_PRX) := by
      rw [hne]; decide
    exact ⟨by simp [h0], hev, rfl, hne⟩
  · obtain ⟨wa, ha, hb⟩ := mode_steps hne (run_eq h)
    obtain ⟨ma, la, ta⟩ := leave_active_trace ha
    rw [enter_mode_other hw (by decide : MODE_NONE ≠ 1) (by decide : MODE_NONE ≠ 2) wa] at hb
    simp only [Prod.mk.injEq, true_and] at hb
    rw [← hb]
    refine ⟨?_, hev, la, ma⟩
    rw [ta]
    by_cases hact : w.currentMode = MODE_PTX ∨ w.currentMode = MODE_PRX
    · have : (decide (w.currentMode = MODE_PRX) || decide (w.currentMode = MODE_PTX)) = true := by
        rcases hact with h1 | h1 <;> simp [h1]
      simp [hact, this]
    · have : (decide (w.currentMode = MODE_PRX) || decide (w.currentMode = MODE_PTX)) = false := by
        simp only [not_or] at hact
        simp [hact.1, hact.2]
      simp [hact, this]

/-- Witness for C24: leaving PRIMARY_RECEIVE for NONE on the mock chip. -/
theorem mode_none_has_no_transaction_witness :
    (mode mock MODE_NONE (mode mock MODE_PRX fresh).2).1 = some () ∧
    (mode mock MODE_NONE (mode mock MODE_PRX fresh).2).2.trace =
      (mode mock MODE_PRX fresh).2.trace ++
        (if (mode mock MODE_PRX fresh).2.currentMode = MODE_PTX ∨
            (mode mock MODE_PRX fresh).2.currentMode = MODE_PRX then
          [Event.ce_write false, Event.ce_flush, Event.wait_us 130]
         else []) ∧
    (mode mock MODE_NONE (mode mock MODE_PRX fresh).2).2.last_status =
      (mode mock MODE_PRX fresh).2.last_status :=
  ⟨rfl, ((mode_none_has_no_transaction mock (mode mock MODE_PRX fresh).2).2.1 rfl).1,
    ((mode_none_has_no_transaction mock (mode mock MODE_PRX fresh).2).2.1 rfl).2.2.1⟩

/-- C27: for every flag `v`, a completed `power(v)` is one read of CONFIG
yielding `c` followed by one write of CONFIG with a byte whose bit 1 (PWR_UP,
0x02) equals `v` and whose other bits are those of `c`; the mode is unchanged
and chip-enable is not written.  On hardware that never fails the call
completes. -/
theorem power_touches_one_bit (hw : Hardware H) (w : nrf24l01plus H) (v : Bool) :
    (Reliable hw → (power hw v w).1 = some ()) ∧
    ((power hw v w).1 = some () →
      BitUpdate 0x00 1 v w.trace (power hw v w).2.trace ∧
      get_mode (power hw v w).2 = get_mode w ∧
      (∀ level, ce_level level (power hw v w).2.trace = ce_level level w.trace)) := by
  have hkeep : (power hw v w).2.currentMode = w.currentMode :=
    keepsMode_bind (keepsMode_read_register hw _ true false)
      (fun _ => keepsMode_write_register hw _ _ false) w
  refine ⟨fun hrel => completes_unit (completes_bind (completes_read_register hrel _ true false)
    (fun _ => completes_write_register hrel _ _ false)) w, fun h => ?_⟩
  have hbit : BitUpdate 0x00 1 v w.trace (power hw v w).2.trace :=
    bit_update_trace (by decide : NRF_REGISTER.CONFIG < 256) (by decide) (by decide : 1 ≤ 5)
      (run_eq h)
  refine ⟨hbit, hkeep, fun level => ?_⟩
  obtain ⟨s1, r, s2, x, ht, _, _⟩ := hbit
  rw [ht, ce_level_append]
  rfl

/-- Witness for C27: power up on the reset mock chip, whose CONFIG reads back
as 0x08. -/
theorem power_touches_one_bit_witness :
    (power mock true fresh).1 = some () ∧
    BitUpdate 0x00 1 true fresh.trace (power mock true fresh).2.trace ∧
    get_mode (power mock true fresh).2 = get_mode fresh :=
  ⟨rfl, ((power_touches_one_bit mock fresh true).2 rfl).1,
    ((power_touches_one_bit mock fresh true).2 rfl).2.1⟩

theorem mock_rx_set_get (m : nrf24l01plus MockChip) (p : Nat) (A : address) (hp : p ≤ 1)
    (hlen : 0x0B < m.hw.registers.length) :
    (rx_set_address mock p A m).1 = some () ∧
    (rx_set_address mock p A m).2.trace = m.trace ++
      [Event.csn_acquire, Event.write_read 1 (some [0x20 ||| (0x0A + p)]) (some [m.hw.status % 256]),
        Event.write_read_reverse 5 (some A.to_list) none, Event.csn_release] ∧
    (rx_get_address mock p (rx_set_address mock p A m).2).1.map address.to_list =
      some (A.to_list.map (fun b => b % 256)) ∧
    (rx_get_address mock p (rx_set_address mock p A m).2).2.trace =
      (rx_set_address mock p A m).2.trace ++
        [Event.csn_acquire, Event.write_read 1 (some [0x0A + p]) (some [m.hw.status % 256]),
          Event.write_read_reverse 5 none (some (A.to_list.map (fun b => b % 256))),
          Event.csn_release] := by
  have h10 : 10 < m.hw.registers.length := by omega
  interval_cases p <;>
    refine (?_ : _ ∧ _ ∧ _ ∧ _) <;>
    simp [rx_set_address, rx_get_address, read_register, write_register, send_command,
      transaction, bind, Drv.bind_run, pure, Drv.pure_run, transaction_write_read,
      transaction_write_read_reverse, set_last_status, emit, mock, MockChip.exchange,
      register_bytes, to_uint8, NRF_INSTRUCTION.W_REGISTER, NRF_INSTRUCTION.R_REGISTER,
      NRF_REGISTER.RX_ADDR_P0, NRF_REGISTER.RX_ADDR_P1, NRF_REGISTER.TX_ADDR, List.getD,
      List.getElem?_set, address.to_list, address.of_buffer, address.copy_loop, received,
      List.range, List.range.loop, h10, hlen] <;>
    exact ⟨rfl, rfl⟩

theorem address.eq_of_to_list {r a : address} (h : r.to_list = a.to_list) : r.eq a = true := by
  rw [address.eq_iff]
  simp only [address.to_list, List.cons.injEq, and_true] at h
  intro i
  fin_cases i
  · exact h.1
  · exact h.2.1
  · exact h.2.2.1
  · exact h.2.2.2.1
  · exact h.2.2.2.2

/-- C26: on the mock register file, for a pipe `p` in {0, 1} and an address
`A` of five bytes, `rx_set_address(p, A)` and then `rx_get_address(p)` both
complete, the address returned compares equal to `A`, and each call is one
command exchanging exactly five payload bytes, byte-reversed, with register
`0x0A + p`. -/
theorem rx_address_round_trip (m : nrf24l01plus MockChip) (p : Nat) (A : address) (hp : p ≤ 1)
    (hA : ∀ i, A.address_bytes i < 256) (hlen : 0x0B < m.hw.registers.length) :
    (rx_set_address mock p A m).1 = some () ∧
    (∃ r, (rx_get_address mock p (rx_set_address mock p A m).2).1 = some r ∧
      r.eq A = true ∧ r.to_list = A.to_list) ∧
    (∃ s1, (rx_set_address mock p A m).2.trace = m.trace ++
      [Event.csn_acquire, Event.write_read 1 (some [0x20 ||| (0x0A + p)]) (some [s1]),
        Event.write_read_reverse 5 (some A.to_list) none, Event.csn_release]) ∧
    (∃ s2, (rx_get_address mock p (rx_set_address mock p A m).2).2.trace =
      (rx_set_address mock p A m).2.trace ++
        [Event.csn_acquire, Event.write_read 1 (some [0x0A + p]) (some [s2]),
          Event.write_read_reverse 5 none (some A.to_list), Event.csn_release]) := by
  obtain ⟨h1, h2, h3, h4⟩ := mock_rx_set_get m p A hp hlen
  have hmap : A.to_list.map (fun b => b % 256) = A.to_list := by
    simp [address.to_list, Nat.mod_eq_of_lt (hA _)]
  rw [hmap] at h3 h4
  refine ⟨h1, ?_, ⟨_, h2⟩, ⟨_, h4⟩⟩
  rcases hr : (rx_get_address mock p (rx_set_address mock p A m).2).1 with _ | r
  · rw [hr] at h3
    simp at h3
  · rw [hr] at h3
    simp only [Option.map_some', Option.some.injEq] at h3
    exact ⟨r, rfl, address.eq_of_to_list h3, h3⟩

/-- Witness for C26: pipe 1 of the reset mock chip set to `{1, 2, 3, 4, 5}`
and read back. -/
theorem rx_address_round_trip_witness :
    (rx_get_address mock 1 (rx_set_address mock 1 (address.of_bytes 1 2 3 4 5) fresh).2).1.map
      address.to_list = some [1, 2, 3, 4, 5] ∧
    ∃ r, (rx_get_address mock 1
        (rx_set_address mock 1 (address.of_bytes 1 2 3 4 5) fresh).2).1 = some r ∧
      r.eq (address.of_bytes 1 2 3 4 5) = true ∧
      r.to_list = (address.of_bytes 1 2 3 4 5).to_list :=
  ⟨rfl, (rx_address_round_trip fresh 1 (address.of_bytes 1 2 3 4 5) (by decide)
    (by intro i; fin_cases i <;> decide) (by decide)).2.1⟩

theorem Drv.bind_pure_unit (x : Drv H Unit) : Drv.bind x (fun _ => Drv.pure ()) = x := by
  funext w
  rw [Drv.bind_run]
  rcases hx : x w with ⟨_ | u, w1⟩ <;> rfl

theorem rx_set_payload_width_trace {hw : Hardware H} {p width : Nat} {w w1 : nrf24l01plus H}
    (hp : p ≤ 5) (h : rx_set_payload_width hw p width w = (some (), w1)) :
    ∃ status, w1.trace = w.trace ++ write_events (0x11 + p) status (width &&& 0x3F) := by
  obtain ⟨ha, hlt, hb⟩ := payload_width_register hp
  unfold rx_set_payload_width write_register_value at h
  rw [ha, payload_width_byte] at h
  obtain ⟨status, _, _, ht⟩ := write_byte_trace hlt hb h
  exact ⟨status, ht⟩

theorem completes_rx_set_payload_width {hw : Hardware H} (hrel : Reliable hw) (p width : Nat) :
    Completes (rx_set_payload_width hw p width) := completes_write_register_value hrel _ _

theorem rx_set_payload_width_all_eq (hw : Hardware H) (width : Nat) :
    rx_set_payload_width_all hw width = rx_set_payload_width_each hw width := by
  have h6 : (Drv.bind (rx_set_payload_width hw 5 width) fun _ =>
      rx_set_payload_width_loop hw width 1 (to_uint8 (5 + 1))) =
      rx_set_payload_width hw 5 width := by
    have : rx_set_payload_width_loop hw width 1 (to_uint8 (5 + 1)) = Drv.pure () := rfl
    rw [this]
    exact Drv.bind_pure_unit _
  unfold rx_set_payload_width_all rx_set_payload_width_each
  show (Drv.bind (rx_set_payload_width hw 0 width) fun _ =>
    Drv.bind (rx_set_payload_width hw 1 width) fun _ =>
    Drv.bind (rx_set_payload_width hw 2 width) fun _ =>
    Drv.bind (rx_set_payload_width hw 3 width) fun _ =>
    Drv.bind (rx_set_payload_width hw 4 width) fun _ =>
    Drv.bind (rx_set_payload_width hw 5 width) fun _ =>
      rx_set_payload_width_loop hw width 1 (to_uint8 (5 + 1))) = _
  rw [h6]
  rfl

/-- C28: the all-pipes form `rx_set_payload_width(w)` is the same operation
as the per-pipe form called for pipes 0, 1, 2, 3, 4, 5 in that order.  On
hardware that never fails it terminates and completes, and a completed call is
exactly six write commands, to registers 0x11, 0x12, 0x13, 0x14, 0x15, 0x16
in this order, each carrying the byte `w & 0x3F`. -/
theorem rx_set_payload_width_all_is_each (hw : Hardware H) (width : Nat)
    (w : nrf24l01plus H) :
    rx_set_payload_width_all hw width = rx_set_payload_width_each hw width ∧
    (Reliable hw → (rx_set_payload_width_all hw width w).1 = some ()) ∧
    ((rx_set_payload_width_all hw width w).1 = some () →
      ∃ s0 s1 s2 s3 s4 s5, (rx_set_payload_width_all hw width w).2.trace = w.trace ++
        (write_events 0x11 s0 (width &&& 0x3F) ++ write_events 0x12 s1 (width &&& 0x3F) ++
          write_events 0x13 s2 (width &&& 0x3F) ++ write_events 0x14 s3 (width &&& 0x3F) ++
          write_events 0x15 s4 (width &&& 0x3F) ++ write_events 0x16 s5 (width &&& 0x3F))) := by
  refine ⟨rx_set_payload_width_all_eq hw width, fun hrel => ?_, fun h => ?_⟩
  · rw [rx_set_payload_width_all_eq]
    exact completes_unit (completes_bind (completes_rx_set_payload_width hrel _ _) (fun _ =>
      completes_bind (completes_rx_set_payload_width hrel _ _) (fun _ =>
      completes_bind (completes_rx_set_payload_width hrel _ _) (fun _ =>
      completes_bind (completes_rx_set_payload_width hrel _ _) (fun _ =>
      completes_bind (completes_rx_set_payload_width hrel _ _) (fun _ =>
        completes_rx_set_payload_width hrel _ _)))))) w
  · rw [rx_set_payload_width_all_eq] at h ⊢
    have h0 := run_eq h
    generalize (rx_set_payload_width_each hw width w).2 = wf at h0 ⊢
    unfold rx_set_payload_width_each at h0
    simp only [bind] at h0
    obtain ⟨_, w1, a0, h0⟩ := Drv.bind_ok h0
    obtain ⟨_, w2, a1, h0⟩ := Drv.bind_ok h0
    obtain ⟨_, w3, a2, h0⟩ := Drv.bind_ok h0
    obtain ⟨_, w4, a3, h0⟩ := Drv.bind_ok h0
    obtain ⟨_, w5, a4, a5⟩ := Drv.bind_ok h0
    obtain ⟨s0, t0⟩ := rx_set_payload_width_trace (by decide : 0 ≤ 5) a0
    obtain ⟨s1, t1⟩ := rx_set_payload_width_trace (by decide : 1 ≤ 5) a1
    obtain ⟨s2, t2⟩ := rx_set_payload_width_trace (by decide : 2 ≤ 5) a2
    obtain ⟨s3, t3⟩ := rx_set_payload_width_trace (by decide : 3 ≤ 5) a3
    obtain ⟨s4, t4⟩ := rx_set_payload_width_trace (by decide : 4 ≤ 5) a4
    obtain ⟨s5, t5⟩ := rx_set_payload_width_trace (by decide : 5 ≤ 5) a5
    refine ⟨s0, s1, s2, s3, s4, s5, ?_⟩
    rw [t5, t4, t3, t2, t1, t0]
    simp only [List.append_assoc]

/-- Witness for C28: width 0xFF on the mock chip, which never fails, is
written as `0xFF & 0x3F` to the six registers. -/
theorem rx_set_payload_width_all_is_each_witness :
    (rx_set_payload_width_all mock 0xFF fresh).1 = some () ∧
    ∃ s0 s1 s2 s3 s4 s5, (rx_set_payload_width_all mock 0xFF fresh).2.trace = fresh.trace ++
      (write_events 0x11 s0 (0xFF &&& 0x3F) ++ write_events 0x12 s1 (0xFF &&& 0x3F) ++
        write_events 0x13 s2 (0xFF &&& 0x3F) ++ write_events 0x14 s3 (0xFF &&& 0x3F) ++
        write_events 0x15 s4 (0xFF &&& 0x3F) ++ write_events 0x16 s5 (0xFF &&& 0x3F)) :=
  ⟨by decide!, (rx_set_payload_width_all_is_each mock 0xFF fresh).2.2 (by decide!)⟩

/-! ## Chip-enable between calls -/

theorem ce_level_exchanges (xs : List Event) (hxs : ∀ e ∈ xs, e.is_exchange = true) :
    ∀ level, ce_level level xs = level := by
  induction xs with
  | nil => exact fun _ => rfl
  | cons e rest ih =>
    intro level
    have he := hxs e (List.mem_cons_self _ _)
    have hrest := ih (fun e' h' => hxs e' (List.mem_cons_of_mem _ h')) level
    cases e <;> simp [Event.is_exchange] at he <;> simpa [ce_level] using hrest

theorem keepsPins_send_command (hw : Hardware H) (c n : Nat) (o : Option (List Nat))
    (i l : Bool) (w : nrf24l01plus H) : KeepsPins w (send_command hw c o n i l w).2 := by
  refine ⟨keepsMode_send_command hw c n o i l w, fun level => ?_⟩
  obtain ⟨xs, hx, hex, _⟩ := send_command_window hw c n o i l w
  rw [hx, ce_level_append]
  show ce_level (ce_level level w.trace) (xs ++ [Event.csn_release]) = _
  rw [ce_level_append, ce_level_exchanges xs hex]
  rfl

theorem respected_keepsPins (hw : Hardware H) : Respected (dead_pins hw) (KeepsPins (H := H)) where
  refl _ := ⟨rfl, fun _ => rfl⟩
  trans _ _ _ h12 h23 := ⟨h23.1.trans h12.1, fun level => (h23.2 level).trans (h12.2 level)⟩
  send_command c o n i l w := keepsPins_send_command (dead_pins hw) c n o i l w
  ce_write _ _ := ⟨rfl, fun _ => rfl⟩
  ce_flush _ := ⟨rfl, fun _ => rfl⟩
  wait_us us w := by
    refine ⟨rfl, fun level => ?_⟩
    show ce_level level (w.trace ++ [Event.wait_us us]) = _
    rw [ce_level_append]
    rfl

theorem run_op_dead_pins (hw : Hardware H) (op : Op) (hb : op.bus_only = true)
    (w : nrf24l01plus H) : run_op (dead_pins hw) op w = run_op hw op w := by
  cases op <;> first | rfl | exact absurd hb (by simp [Op.bus_only])

/-- A member function that only talks to the bus keeps the mode and the value
last written to chip-enable, whatever its outcome. -/
theorem keepsPins_bus_only (hw : Hardware H) (op : Op) (hb : op.bus_only = true)
    (w : nrf24l01plus H) : KeepsPins w (run_op hw op w) := by
  rw [← run_op_dead_pins hw op hb w]
  refine respected_run_op (respected_keepsPins hw) op w ?_
  intro m hm
  rw [hm] at hb
  exact absurd hb (by simp [Op.bus_only])

theorem ce_level_tx_send_payload {hw : Hardware H} (hrel : Reliable hw) (w : nrf24l01plus H) :
    ce_level false (tx_send_payload hw w).2.trace = false := by
  have h := run_eq (completes_unit (completes_tx_send_payload hrel) w)
  rw [tx_send_payload_trace h, ce_level_append]
  rfl

theorem ce_level_mode {hw : Hardware H} (hrel : Reliable hw) (m : Nat) (w : nrf24l01plus H)
    (hw0 : CeOnlyInReceive w) : CeOnlyInReceive (mode hw m w).2 := by
  by_cases hne : w.currentMode = m
  · have h : mode hw w.currentMode w = (some (), w) := by
      simp [mode, bind, Drv.bind_run, read_currentMode, pure, Drv.pure_run]
    rw [← hne, h]
    exact hw0
  · by_cases h2 : m = 2
    · intro _
      rw [mode_stores_argument, h2]
      rfl
    · have hrun := run_eq (completes_unit (completes_mode hrel m) w)
      obtain ⟨wa, ha, hb⟩ := mode_steps hne hrun
      obtain ⟨_, _, ta⟩ := leave_active_trace ha
      have hlevel : ce_level false wa.trace = false := by
        rw [ta, ce_level_append]
        by_cases hact : (decide (w.currentMode = MODE_PRX) || decide (w.currentMode = MODE_PTX)) = true
        · rw [if_pos hact]
          rfl
        · rw [if_neg hact]
          show ce_level false w.trace = false
          by_contra hce
          have hprx := hw0 (by simpa using hce)
          simp [hprx] at hact
      intro hce
      exfalso
      by_cases h1 : m = 1
      · subst h1
        obtain ⟨s1, c, s2, _, _, tb⟩ := enter_mode_ptx_trace hb
        rw [tb, ce_level_append, hlevel] at hce
        simp [read_events, write_events, ce_level] at hce
      · rw [enter_mode_other hw h1 h2 wa] at hb
        simp only [Prod.mk.injEq, true_and] at hb
        rw [← hb, hlevel] at hce
        exact Bool.false_ne_true hce

theorem ce_level_run_op {hw : Hardware H} (hrel : Reliable hw) (op : Op) (w : nrf24l01plus H)
    (hw0 : CeOnlyInReceive w) : CeOnlyInReceive (run_op hw op w) := by
  by_cases hb : op.bus_only = true
  · obtain ⟨hm, hl⟩ := keepsPins_bus_only hw op hb w
    intro hce
    rw [hl] at hce
    rw [hm]
    exact hw0 hce
  · cases op with
    | mode m => exact ce_level_mode hrel m w hw0
    | tx_send_payload =>
      intro hce
      rw [show run_op hw Op.tx_send_payload w = (tx_send_payload hw w).2 from rfl,
        ce_level_tx_send_payload hrel] at hce
      exact absurd hce Bool.false_ne_true
    | tx_write_payload d n a =>
      intro hce
      exfalso
      have hrun := run_eq (completes_unit (completes_tx_write_payload hrel d n a) w)
      have key : ∀ op, Drv.bind (send_command hw op (some d) n false false)
          (fun _ => tx_send_payload hw) w = (some (), (tx_write_payload hw d n a w).2) →
          ce_level false (tx_write_payload hw d n a w).2.trace = false := by
        intro c hc
        obtain ⟨_, wa, _, hb2⟩ := Drv.bind_ok hc
        rw [tx_send_payload_trace hb2, ce_level_append]
        rfl
      have hfalse : ce_level false (tx_write_payload hw d n a w).2.trace = false := by
        cases a
        · exact key NRF_INSTRUCTION.W_TX_PAYLOAD hrun
        · exact key NRF_INSTRUCTION.W_TX_PAYLOAD_NO_ACK hrun
      rw [show run_op hw (Op.tx_write_payload d n a) w = (tx_write_payload hw d n a w).2 from rfl,
        hfalse] at hce
      exact Bool.false_ne_true hce
    | _ => exact absurd rfl hb

/-- C25: on hardware that never fails, after every sequence of calls of
member functions on a freshly constructed driver, with chip-enable low at the
start, the value last written to chip-enable is true only if the mode is
PRIMARY_RECEIVE; so in mode NONE and in mode PRIMARY_TRANSMIT the value last
written to chip-enable is false. -/
theorem chip_enable_only_in_receive (hw : Hardware H) (hrel : Reliable hw) (h : H)
    (ops : List Op) :
    (ce_level false (run_ops hw ops (construct h)).trace = true →
      get_mode (run_ops hw ops (construct h)) = MODE_PRX) ∧
    (get_mode (run_ops hw ops (construct h)) = MODE_NONE ∨
        get_mode (run_ops hw ops (construct h)) = MODE_PTX →
      ce_level false (run_ops hw ops (construct h)).trace = false) := by
  have key : ∀ (ops : List Op) (w : nrf24l01plus H), CeOnlyInReceive w →
      CeOnlyInReceive (run_ops hw ops w) := by
    intro ops
    induction ops with
    | nil => exact fun _ hw0 => hw0
    | cons op rest ih => exact fun w hw0 => ih _ (ce_level_run_op hrel op w hw0)
  have hinv : CeOnlyInReceive (run_ops hw ops (construct h)) :=
    key ops (construct h) (fun hce => absurd hce Bool.false_ne_true)
  refine ⟨hinv, fun hmode => ?_⟩
  by_contra hce
  have hprx := hinv (by simpa using hce)
  rw [get_mode] at hmode
  rw [hprx] at hmode
  revert hmode
  decide

/-- Witness for C25: on the mock chip, receive mode leaves chip-enable
written true; a payload write and the change to transmit mode leave it written
false. -/
theorem chip_enable_only_in_receive_witness :
    ce_level false (run_ops mock [Op.mode 2, Op.channel 5] (construct MockChip.reset)).trace =
      true ∧
    get_mode (run_ops mock [Op.mode 2, Op.channel 5] (construct MockChip.reset)) = MODE_PRX ∧
    ce_level false
      (run_ops mock [Op.mode 2, Op.mode 1, Op.tx_write_payload [7] 1 false]
        (construct MockChip.reset)).trace = false :=
  ⟨rfl,
    (chip_enable_only_in_receive mock mock_reliable MockChip.reset
      [Op.mode 2, Op.channel 5]).1 rfl,
    (chip_enable_only_in_receive mock mock_reliable MockChip.reset
      [Op.mode 2, Op.mode 1, Op.tx_write_payload [7] 1 false]).2 (Or.inr rfl)⟩

/-! ## The self test -/

theorem Tst.bind_step {α β : Type} (x : Tst H α) (f : α → Tst H β) (t : startup_test H) :
    Tst.bind x f t = match x t with
      | (some a, t1) => f a t1
      | (none, t1) => (none, t1) := rfl

theorem Tst.bind_returns {α β : Type} {x : Tst H α} {f : α → Tst H β} {t t2 : startup_test H}
    {b : β} (h : Tst.bind x f t = (some b, t2)) :
    ∃ a t1, x t = (some a, t1) ∧ f a t1 = (some b, t2) := by
  rw [Tst.bind_step] at h
  rcases hx : x t with ⟨_ | a, t1⟩
  · simp [hx] at h
  · exact ⟨a, t1, rfl, by simpa [hx] using h⟩

theorem Tst.call_flags {α : Type} (x : Drv H α) (t : startup_test H) :
    (Tst.call x t).2.noack_transmission_success = t.noack_transmission_success ∧
    (Tst.call x t).2.register_success = t.register_success :=
  ⟨rfl, rfl⟩

theorem wait_for_transmission_register_success (hw : Hardware H) (fuel : Nat) :
    ∀ t : startup_test H,
      (wait_for_transmission hw fuel t).2.register_success = t.register_success := by
  induction fuel with
  | zero => exact fun _ => rfl
  | succ fuel ih =>
    intro t
    unfold wait_for_transmission
    simp only [bind, Tst.bind_step, Tst.call, Tst.last_status, pure, Tst.pure,
      Tst.set_noack_transmission_success]
    rcases hn : no_operation hw t.nrf with ⟨_ | u, n⟩
    · rfl
    · simp only []
      split <;>
        simp only [Tst.bind_step, Tst.set_noack_transmission_success, Tst.last_status, Tst.pure] <;>
        split <;> first | rfl | exact ih _

/-- If the wait loop returns with some fuel, it returns in the same state with
one more unit of fuel. -/
theorem wait_for_transmission_mono (hw : Hardware H) (fuel : Nat) :
    ∀ t t1 : startup_test H, wait_for_transmission hw fuel t = (some (), t1) →
      wait_for_transmission hw (fuel + 1) t = (some (), t1) := by
  induction fuel with
  | zero =>
    intro t t1 h
    simp [wait_for_transmission] at h
  | succ fuel ih =>
    intro t t1 h
    rw [wait_for_transmission] at h ⊢
    simp only [bind, Tst.bind_step, Tst.call, Tst.last_status, pure, Tst.pure,
      Tst.set_noack_transmission_success] at h ⊢
    rcases hn : no_operation hw t.nrf with ⟨_ | u, n⟩
    · simp [hn] at h
    · simp only [hn] at h ⊢
      split at h <;>
        simp only [Tst.bind_step, Tst.set_noack_transmission_success, Tst.last_status, Tst.pure,
          *, if_true, if_false] at h ⊢ <;>
        split at h <;> first
          | (rw [if_pos (by assumption)]; exact ih _ _ h)
          | (rw [if_neg (by assumption)]; exact h)

/-- C29: whenever `test_one_side_transmission` returns, whatever status bytes
the chip answered and whether or not one of them had the MAX_RT bit set,
`noack_transmission_success` is true on return, `register_success` is the
value it had before, and `all_successful()` equals `register_success`.  A
run that returns with some fuel for the wait loop returns in the same state
with more fuel. -/
theorem self_test_flag_always_true (hw : Hardware H) (fuel : Nat) (t : startup_test H)
    (h : (test_one_side_transmission hw fuel t).1 = some ()) :
    (test_one_side_transmission hw fuel t).2.noack_transmission_success = true ∧
    (test_one_side_transmission hw fuel t).2.register_success = t.register_success ∧
    all_successful (test_one_side_transmission hw fuel t).2 =
      (test_one_side_transmission hw fuel t).2.register_success ∧
    test_one_side_transmission hw (fuel + 1) t = test_one_side_transmission hw fuel t := by
  have h0 : test_one_side_transmission hw fuel t =
      (some (), (test_one_side_transmission hw fuel t).2) := Prod.ext h rfl
  generalize (test_one_side_transmission hw fuel t).2 = tf at h0 ⊢
  have hdef : ∀ f, test_one_side_transmission hw f t =
      Tst.bind (Tst.call (tx_set_address hw (address.of_bytes 0x34 0x34 0x34 0x34 0x34)))
        (fun _ => Tst.bind
          (Tst.call (rx_set_address hw 0 (address.of_bytes 0x34 0x34 0x34 0x34 0x34)))
        (fun _ => Tst.bind (Tst.call (mode hw MODE_PTX))
        (fun _ => Tst.bind (Tst.call (write_register_value hw NRF_REGISTER.FEATURE 1))
        (fun _ => Tst.bind (Tst.call (tx_write_payload hw [0, 0, 0, 0, 0] 5 true))
        (fun _ => Tst.bind (wait_for_transmission hw f)
        (fun _ => Tst.bind (Tst.set_noack_transmission_success true)
        (fun _ => Tst.call (mode hw MODE_NONE)))))))) t := fun _ => rfl
  have h1 := h0
  rw [hdef] at h1
  obtain ⟨_, t1, a1, h1⟩ := Tst.bind_returns h1
  obtain ⟨_, t2, a2, h1⟩ := Tst.bind_returns h1
  obtain ⟨_, t3, a3, h1⟩ := Tst.bind_returns h1
  obtain ⟨_, t4, a4, h1⟩ := Tst.bind_returns h1
  obtain ⟨_, t5, a5, h1⟩ := Tst.bind_returns h1
  obtain ⟨_, t6, a6, h1⟩ := Tst.bind_returns h1
  obtain ⟨_, t7, a7, a8⟩ := Tst.bind_returns h1
  have e1 : t1 = (Tst.call (tx_set_address hw (address.of_bytes 0x34 0x34 0x34 0x34 0x34)) t).2 := by
    rw [a1]
  have e2 : t2 = (Tst.call
      (rx_set_address hw 0 (address.of_bytes 0x34 0x34 0x34 0x34 0x34)) t1).2 := by rw [a2]
  have e3 : t3 = (Tst.call (mode hw MODE_PTX) t2).2 := by rw [a3]
  have e4 : t4 = (Tst.call (write_register_value hw NRF_REGISTER.FEATURE 1) t3).2 := by rw [a4]
  have e5 : t5 = (Tst.call (tx_write_payload hw [0, 0, 0, 0, 0] 5 true) t4).2 := by rw [a5]
  have e6 : t6 = (wait_for_transmission hw fuel t5).2 := by rw [a6]
  have e7 : t7 = { t6 with noack_transmission_success := true } := by
    simp only [Tst.set_noack_transmission_success, Prod.mk.injEq, true_and] at a7
    exact a7.symm
  have e8 : tf = (Tst.call (mode hw MODE_NONE) t7).2 := by rw [a8]
  have hflag : tf.noack_transmission_success = true := by
    rw [e8, (Tst.call_flags _ _).1, e7]
  have hreg : tf.register_success = t.register_success := by
    rw [e8, (Tst.call_flags _ _).2, e7]
    show t6.register_success = _
    rw [e6, wait_for_transmission_register_success, e5, (Tst.call_flags _ _).2, e4,
      (Tst.call_flags _ _).2, e3, (Tst.call_flags _ _).2, e2, (Tst.call_flags _ _).2, e1,
      (Tst.call_flags _ _).2]
  refine ⟨hflag, hreg, ?_, ?_⟩
  · simp [all_successful, hflag]
  · have a6' := wait_for_transmission_mono hw fuel t5 t6 (by rw [a6])
    rw [h0, hdef]
    simp only [Tst.bind_step, a1, a2, a3, a4, a5, a6', a7, a8]

/-- Witness for C29: on a mock chip whose status byte 0x3E has both MAX_RT and
TX_DS set the self test returns after one pass of the wait loop with the flag
true; the same on a chip whose status byte 0x2E has TX_DS only. -/
theorem self_test_flag_always_true_witness :
    (0x3E &&& NRF_STATUS.MAX_RT > 0 ∧ 0x2E &&& NRF_STATUS.MAX_RT = 0) ∧
    (test_one_side_transmission mock 1
      (startup_test.construct (mock_with_status 0x3E))).2.noack_transmission_success = true ∧
    (test_one_side_transmission mock 1
      (startup_test.construct (mock_with_status 0x2E))).2.noack_transmission_success = true :=
  ⟨by decide,
    (self_test_flag_always_true mock 1 (startup_test.construct (mock_with_status 0x3E))
      (by decide!)).1,
    (self_test_flag_always_true mock 1 (startup_test.construct (mock_with_status 0x2E))
      (by decide!)).1⟩

end nrf24l01
